import Mathlib

/-!
Verification of the sauna-club membership app (src/index.tsx) against its
natural-language specification.

Shallow embedding conventions:
* JavaScript `Date` values are modelled as a civil (proleptic Gregorian)
  calendar date plus a millisecond time-of-day.  JS compares `Date`s by epoch
  milliseconds; for civil dates this order coincides with the ordinal-day
  order used here (`epochMs`).  Local time is assumed to equal UTC (the source
  freely mixes `toISOString` (UTC) with `getDay`/`getFullYear` (local); the
  spec does not mention time zones).
* The source stores a slot's date as the ISO string "YYYY-MM-DD" and its time
  as "H:MM"; those renderings (`dateStr`, `timeStr`) are injective on the
  app's date range, so slot records keep the structured `CalDate` /
  minutes-of-day value and the string renderings appear inside the composite
  `id` exactly as built by the source.
* React state handlers are modelled as pure functions from the collections
  they read to the collections they replace (`setXs(newXs)`); persistence
  (`apiClient.saveXs`) writes the same value and is not re-modelled.
-/

/-- Gregorian leap-year test, as used by JS `Date` calendar arithmetic. -/
def isLeap (y : Nat) : Bool :=
  (y % 4 == 0 && y % 100 != 0) || y % 400 == 0

/-- Number of days of month `m` (1..12) in year `y`. -/
def daysInMonth (y : Nat) (m : Nat) : Nat :=
  if m = 2 then (if isLeap y then 29 else 28)
  else if m = 4 ∨ m = 6 ∨ m = 9 ∨ m = 11 then 30
  else 31

/-- A civil calendar date (proleptic Gregorian, year ≥ 0 suffices for the
    app's date range). -/
structure CalDate where
  year : Nat
  month : Nat
  day : Nat
deriving DecidableEq

/-- A well-formed calendar date. -/
def CalDate.Valid (d : CalDate) : Prop :=
  1 ≤ d.month ∧ d.month ≤ 12 ∧ 1 ≤ d.day ∧ d.day ≤ daysInMonth d.year d.month

instance (d : CalDate) : Decidable d.Valid := by
  unfold CalDate.Valid; infer_instance

/-- Number of leap years in `[0, y)` (year 0 itself is leap). -/
def leapsBefore : Nat → Nat
  | 0 => 0
  | n + 1 => 1 + n / 4 - n / 100 + n / 400

/-- Days from 0000-01-01 up to the start of year `y`. -/
def daysBeforeYear (y : Nat) : Nat := 365 * y + leapsBefore y

/-- Days from the start of year `y` up to the start of month `m`. -/
def daysBeforeMonth (y : Nat) (m : Nat) : Nat :=
  (if m ≤ 1 then 0
   else if m = 2 then 31
   else if m = 3 then 59
   else if m = 4 then 90
   else if m = 5 then 120
   else if m = 6 then 151
   else if m = 7 then 181
   else if m = 8 then 212
   else if m = 9 then 243
   else if m = 10 then 273
   else if m = 11 then 304
   else 334)
  + (if 3 ≤ m ∧ isLeap y = true then 1 else 0)

/-- Ordinal day number of a date: days elapsed since 0000-01-01. -/
def toOrdinal (d : CalDate) : Nat :=
  daysBeforeYear d.year + daysBeforeMonth d.year d.month + (d.day - 1)

/-- The calendar day after `d`, with month/year rollover (JS `setDate`). -/
def nextDay (d : CalDate) : CalDate :=
  if d.day < daysInMonth d.year d.month then ⟨d.year, d.month, d.day + 1⟩
  else if d.month < 12 then ⟨d.year, d.month + 1, 1⟩
  else ⟨d.year + 1, 1, 1⟩

/-- The calendar day before `d`. -/
def prevDay (d : CalDate) : CalDate :=
  if 1 < d.day then ⟨d.year, d.month, d.day - 1⟩
  else if 1 < d.month then ⟨d.year, d.month - 1, daysInMonth d.year (d.month - 1)⟩
  else ⟨d.year - 1, 12, 31⟩

/-- `d` shifted forward by `n` days (JS `setDate(getDate() + n)`). -/
def addDays (d : CalDate) : Nat → CalDate
  | 0 => d
  | n + 1 => nextDay (addDays d n)

/-- `d` shifted backward by `n` days (JS `setDate(getDate() - n)`). -/
def subDays (d : CalDate) : Nat → CalDate
  | 0 => d
  | n + 1 => prevDay (subDays d n)

/-- Day of the week as returned by JS `getDay`: 0 = Sunday, …, 6 = Saturday.
    Calibrated so that 1970-01-01 (ordinal 719528) is a Thursday (4). -/
def dayOfWeek (d : CalDate) : Nat := (toOrdinal d + 6) % 7

/-- A JS `Date` value: civil date plus milliseconds since local midnight. -/
structure DateTime where
  date : CalDate
  tod : Nat
deriving DecidableEq

/-- Epoch-style millisecond timestamp of a `DateTime`; JS compares `Date`
    values by exactly this quantity (up to a constant origin shift). -/
def epochMs (t : DateTime) : Nat := toOrdinal t.date * 86400000 + t.tod

-- ### Calendar lemmas

theorem leapsBefore_succ (y : Nat) :
    leapsBefore (y + 1) = leapsBefore y + (if isLeap y = true then 1 else 0) := by
  cases y with
  | zero => decide
  | succ n =>
    simp only [leapsBefore, isLeap, Bool.or_eq_true, Bool.and_eq_true,
      beq_iff_eq, bne_iff_ne, ne_eq]
    split_ifs with h
    · omega
    · omega

theorem one_le_daysInMonth (y m : Nat) : 1 ≤ daysInMonth y m := by
  unfold daysInMonth
  split_ifs <;> omega

theorem daysInMonth_le (y m : Nat) : daysInMonth y m ≤ 31 := by
  unfold daysInMonth
  split_ifs <;> omega

theorem daysBeforeMonth_succ (y : Nat) {m : Nat} (h1 : 1 ≤ m) (h2 : m ≤ 11) :
    daysBeforeMonth y (m + 1) = daysBeforeMonth y m + daysInMonth y m := by
  interval_cases m <;>
    simp only [daysBeforeMonth, daysInMonth, isLeap] <;>
    norm_num <;> split_ifs <;> omega

theorem daysBeforeYear_succ (y : Nat) :
    daysBeforeYear (y + 1)
      = daysBeforeYear y + 365 + (if isLeap y = true then 1 else 0) := by
  simp only [daysBeforeYear, leapsBefore_succ]
  split_ifs <;> omega

theorem valid_nextDay {d : CalDate} (h : d.Valid) : (nextDay d).Valid := by
  obtain ⟨y, m, dy⟩ := d
  obtain ⟨h1, h2, h3, h4⟩ := h
  dsimp only [CalDate.Valid] at *
  unfold nextDay
  dsimp only
  split_ifs with hd hm <;> dsimp only [CalDate.Valid]
  · exact ⟨h1, h2, by omega, by omega⟩
  · exact ⟨by omega, by omega, le_refl 1, one_le_daysInMonth _ _⟩
  · exact ⟨by omega, by omega, le_refl 1, one_le_daysInMonth _ _⟩

theorem toOrdinal_nextDay {d : CalDate} (h : d.Valid) :
    toOrdinal (nextDay d) = toOrdinal d + 1 := by
  obtain ⟨y, m, dy⟩ := d
  obtain ⟨h1, h2, h3, h4⟩ := h
  dsimp only [CalDate.Valid] at *
  unfold nextDay
  dsimp only
  split_ifs with hd hm <;> dsimp only [toOrdinal]
  · omega
  · -- month rollover within the year
    have hdy : dy = daysInMonth y m := by omega
    subst hdy
    rw [daysBeforeMonth_succ y h1 (by omega)]
    have := one_le_daysInMonth y m
    omega
  · -- year rollover: Dec 31 → Jan 1
    have hm12 : m = 12 := by omega
    subst hm12
    have h31 : daysInMonth y 12 = 31 := by norm_num [daysInMonth]
    have hdy : dy = 31 := by omega
    subst hdy
    have e1 : daysBeforeYear (y + 1)
        = daysBeforeYear y + 365 + (if isLeap y = true then 1 else 0) := by
      simp only [daysBeforeYear, leapsBefore_succ]
      split_ifs <;> omega
    have e2 : daysBeforeMonth (y + 1) 1 = 0 := by norm_num [daysBeforeMonth]
    have e3 : daysBeforeMonth y 12 = 334 + (if isLeap y = true then 1 else 0) := by
      norm_num [daysBeforeMonth]
    rw [e1, e2, e3]
    split_ifs <;> omega

theorem valid_addDays {d : CalDate} (h : d.Valid) (n : Nat) : (addDays d n).Valid := by
  induction n with
  | zero => exact h
  | succ k ih => exact valid_nextDay ih

theorem toOrdinal_addDays {d : CalDate} (h : d.Valid) (n : Nat) :
    toOrdinal (addDays d n) = toOrdinal d + n := by
  induction n with
  | zero => rfl
  | succ k ih =>
    show toOrdinal (nextDay (addDays d k)) = _
    rw [toOrdinal_nextDay (valid_addDays h k), ih]
    omega

theorem addDays_ne_of_ne {d : CalDate} (h : d.Valid) {a b : Nat} (hab : a ≠ b) :
    addDays d a ≠ addDays d b := by
  intro he
  have := toOrdinal_addDays h a
  rw [he, toOrdinal_addDays h b] at this
  omega

theorem prevDay_spec {d : CalDate} (h : d.Valid) (h1 : 1 ≤ toOrdinal d) :
    (prevDay d).Valid ∧ toOrdinal (prevDay d) + 1 = toOrdinal d := by
  obtain ⟨y, m, dy⟩ := d
  obtain ⟨v1, v2, v3, v4⟩ := h
  dsimp only [CalDate.Valid] at *
  unfold prevDay
  dsimp only
  split_ifs with hd hm <;> dsimp only [CalDate.Valid, toOrdinal]
  · exact ⟨⟨v1, v2, by omega, by omega⟩, by omega⟩
  · -- first of a month (not January): step into the previous month
    have hs : daysBeforeMonth y (m - 1 + 1)
        = daysBeforeMonth y (m - 1) + daysInMonth y (m - 1) :=
      daysBeforeMonth_succ y (by omega) (by omega)
    have hm1 : m - 1 + 1 = m := by omega
    rw [hm1] at hs
    have := one_le_daysInMonth y (m - 1)
    exact ⟨⟨by omega, by omega, one_le_daysInMonth _ _, le_refl _⟩, by omega⟩
  · -- January 1st: step into December 31st of the previous year
    have hm1 : m = 1 := by omega
    have hdy : dy = 1 := by omega
    subst hm1; subst hdy
    dsimp only [toOrdinal] at h1
    have e2 : daysBeforeMonth y 1 = 0 := by norm_num [daysBeforeMonth]
    have hy : 1 ≤ y := by
      by_contra hy0
      have hy' : y = 0 := by omega
      subst hy'
      rw [e2] at h1
      simp [daysBeforeYear, leapsBefore] at h1
    have h31 : daysInMonth (y - 1) 12 = 31 := by norm_num [daysInMonth]
    have e3 : daysBeforeMonth (y - 1) 12
        = 334 + (if isLeap (y - 1) = true then 1 else 0) := by
      norm_num [daysBeforeMonth]
    have e1 := daysBeforeYear_succ (y - 1)
    have hy1 : y - 1 + 1 = y := by omega
    rw [hy1] at e1
    refine ⟨⟨by omega, by omega, by omega, by omega⟩, ?_⟩
    rw [e1, e2, e3]
    split_ifs <;> omega

theorem subDays_spec {d : CalDate} (h : d.Valid) (n : Nat) (hn : n ≤ toOrdinal d) :
    (subDays d n).Valid ∧ toOrdinal (subDays d n) = toOrdinal d - n := by
  induction n with
  | zero => exact ⟨h, rfl⟩
  | succ k ih =>
    obtain ⟨ihv, iho⟩ := ih (by omega)
    have hp := prevDay_spec ihv (by omega)
    have hs : subDays d (k + 1) = prevDay (subDays d k) := rfl
    rw [hs]
    exact ⟨hp.1, by omega⟩

-- ### String renderings used inside slot ids

/-- Two-digit zero-padded decimal, as in the ISO date string. -/
def pad2 (n : Nat) : String := if n < 10 then "0" ++ toString n else toString n

/-- Four-digit zero-padded decimal, as in the ISO date string. -/
def pad4 (n : Nat) : String :=
  if n < 10 then "000" ++ toString n
  else if n < 100 then "00" ++ toString n
  else if n < 1000 then "0" ++ toString n
  else toString n

/-- `toISOString().split('T')[0]`: the "YYYY-MM-DD" rendering of a date. -/
def dateStr (d : CalDate) : String :=
  pad4 d.year ++ "-" ++ pad2 d.month ++ "-" ++ pad2 d.day

/-- The source builds slot times as template strings from the hour, e.g.
    `${hour}:00` and `${hour}:30`; slot times are modelled as minutes since
    midnight, and this is their string rendering. -/
def timeStr (t : Nat) : String :=
  toString (t / 60) ++ ":" ++ (if t % 60 < 10 then "0" ++ toString (t % 60) else toString (t % 60))

-- ### Domain entities (the `type` declarations of src/index.tsx)

structure Award where
  id : String
  name : String
  icon : String
  color : String
deriving DecidableEq

structure User where
  id : Nat
  name : String
  nickname : Option String
  email : String
  phone : Option String
  primarySauna : String
  avatarUrl : String
  qualifications : List String
  awards : List String
  aufgussCount : Nat
  workHours : Nat
  isAdmin : Bool
  permissions : List String
  status : String
  shortNoticeCancellations : Nat
  username : Option String
  showInMemberList : Bool
  lastProfileUpdate : Option Nat
  lastAufgussShareTimestamp : Option Nat
  motto : Option String
deriving DecidableEq

/-- An Aufguss time slot.  The source stores `date` as the "YYYY-MM-DD"
    string and `time` as the "H:MM" string; here they are kept structured
    (see the header comment), with `dateStr`/`timeStr` used in `id`. -/
structure Aufguss where
  id : String
  location : String
  sauna : String
  date : CalDate
  time : Nat
  aufgussmeisterId : Option Nat
  aufgussmeisterName : Option String
  type : Option String
deriving DecidableEq

structure Comment where
  id : Nat
  userId : Nat
  text : String
deriving DecidableEq

structure PollOption where
  text : String
  votes : List Nat
deriving DecidableEq

structure PollData where
  question : String
  options : List PollOption
deriving DecidableEq

structure Post where
  id : Nat
  userId : Nat
  type : String
  content : String
  pollData : Option PollData
  imageUrl : Option String
  embedUrl : Option String
  timestamp : String
  likes : List Nat
  comments : List Comment
deriving DecidableEq

structure AufgussProposal where
  id : String
  name : String
deriving DecidableEq

structure FestivalParticipant where
  userId : Nat
  status : String
  aufgussAvailability : List String
  workHours : Nat
  hoursLogged : Bool
  aufgussProposals : List AufgussProposal
deriving DecidableEq

structure FestivalTask where
  id : Nat
  description : String
  responsible : Option Nat
deriving DecidableEq

structure Festival where
  id : String
  name : String
  startDate : CalDate
  endDate : CalDate
  rsvpDeadline : DateTime
  location : String
  numberOfSaunas : Nat
  aufgussTimes : List String
  tasks : List FestivalTask
  participants : List FestivalParticipant
deriving DecidableEq

-- ### Constants

def SAUNA_LOCATIONS : List String :=
  ["Panoramabad Freudenstadt", "Albthermen Bad Urach", "Saunawelt Höchenschwand"]

def LOCATION_SAUNAS (loc : String) : List String :=
  if loc = "Panoramabad Freudenstadt" then ["80° Kelo Sauna", "100° Blockhaus Sauna"]
  else if loc = "Albthermen Bad Urach" then ["Mineraltherme-Sauna"]
  else if loc = "Saunawelt Höchenschwand" then ["Natur-Sauna", "Schwarzwald-Hütte"]
  else []

def DEFAULT_AUFGUSS_TYPES : List String :=
  ["Räucherritual", "Duftreise mit 3 ätherischen Ölen", "Kräutersud",
   "Haferpflaumen Schnapsaufguss"]

def DEFAULT_QUALIFICATIONS : List String :=
  ["Saunameister Basic", "Saunameister Pro", "Eventmanagement", "Ersthelfer"]

def MOCK_AWARDS : List Award :=
  [⟨"aufguss_bronze", "Aufguss-Meister (Bronze)", "military_tech", "#CD7F32"⟩,
   ⟨"aufguss_silver", "Aufguss-Meister (Silber)", "military_tech", "#C0C0C0"⟩,
   ⟨"aufguss_gold", "Aufguss-Meister (Gold)", "military_tech", "#FFD700"⟩,
   ⟨"fleissiger_helfer", "Fleißiger Helfer", "construction", "var(--success-color)"⟩,
   ⟨"event_organisator", "Event-Organisator", "celebration", "var(--admin-color)"⟩,
   ⟨"sauna_wanderer", "Sauna-Wanderer", "hiking", "#8D6E63"⟩,
   ⟨"kraeuter_hexe", "Kräuter-Hexe", "spa", "#2E7D32"⟩,
   ⟨"fels_in_der_brandung", "Fels in der Brandung", "verified", "#1565C0"⟩,
   ⟨"nachteule", "Nachteule", "dark_mode", "#4527A0"⟩,
   ⟨"fruehaufsteher", "Frühaufsteher", "light_mode", "#FB8C00"⟩,
   ⟨"social_butterfly", "Social Butterfly", "groups", "#D81B60"⟩,
   ⟨"zeremonienmeister", "Zeremonienmeister", "auto_stories", "#6A1B9A"⟩,
   ⟨"hitze_titan", "Hitze-Titan", "local_fire_department", "#BF360C"⟩,
   ⟨"planungs_genie", "Planungs-Genie", "event_available", "#00695C"⟩,
   ⟨"vereins_legende", "Vereins-Legende", "workspace_premium", "#B71C1C"⟩]

def MOCK_USER_1 : User :=
  { id := 1, name := "Christoph René Wolfert", nickname := some "Der Aufgiesser",
     email := "chris@example.com", phone := none,
     primarySauna := "Panoramabad Freudenstadt",
     avatarUrl := "https://i.pravatar.cc/150?u=1",
     qualifications := ["Saunameister Pro", "Eventmanagement"],
     awards := ["aufguss_gold", "event_organisator", "vereins_legende"],
     aufgussCount := 99, workHours := 150, isAdmin := true,
     permissions := ["delete_content", "create_festivals", "manage_users"],
     status := "active", shortNoticeCancellations := 0, username := some "admin",
     showInMemberList := true, lastProfileUpdate := some 0,
     lastAufgussShareTimestamp := some 0, motto := some "Der Wald ruft." }

def MOCK_USER_2 : User :=
  { id := 2, name := "Max Mustermann", nickname := none,
     email := "max@example.com", phone := none,
     primarySauna := "Saunawelt Höchenschwand", avatarUrl := "🔥",
     qualifications := ["Saunameister Basic"],
     awards := ["aufguss_bronze", "hitze_titan"],
     aufgussCount := 12, workHours := 25, isAdmin := false, permissions := [],
     status := "active", shortNoticeCancellations := 1, username := some "max",
     showInMemberList := true, lastProfileUpdate := some 0,
     lastAufgussShareTimestamp := some 0, motto := some "Schwitzen für den Sieg." }

def MOCK_USER_3 : User :=
  { id := 3, name := "Anna Schmidt", nickname := none,
     email := "anna@example.com", phone := none,
     primarySauna := "Albthermen Bad Urach",
     avatarUrl := "https://i.pravatar.cc/150?u=3",
     qualifications := [], awards := [],
     aufgussCount := 0, workHours := 0, isAdmin := false, permissions := [],
     status := "active", shortNoticeCancellations := 0, username := some "anna",
     showInMemberList := true, lastProfileUpdate := some 0,
     lastAufgussShareTimestamp := some 0, motto := some "" }

def MOCK_USERS : List User := [MOCK_USER_1, MOCK_USER_2, MOCK_USER_3]

def MOCK_POST_1 : Post :=
  { id := 1, userId := 2, type := "text",
     content := "Freue mich schon auf das Sommer-Saunafest! Wer ist alles dabei?",
     pollData := none, imageUrl := none, embedUrl := none,
     timestamp := "Vor 2 Stunden", likes := [1],
     comments := [⟨1, 1, "Ich bin auf jeden Fall da und übernehme die Playlist!"⟩] }

def MOCK_POST_2 : Post :=
  { id := 2, userId := 1, type := "text",
     content := "Der neue Kräutersud-Aufguss ist fertig vorbereitet. Ein echtes Erlebnis!",
     pollData := none, imageUrl := none, embedUrl := none,
     timestamp := "Gestern", likes := [], comments := [] }

def MOCK_POLL : PollData :=
  { question := "Welcher neue Aufguss-Duft soll als nächstes ins Programm?",
    options := [⟨"Zirbe-Latschenkiefer", [2]⟩, ⟨"Orange-Ingwer", []⟩,
                ⟨"Sandelholz-Vanille", [1]⟩] }

def MOCK_POST_3 : Post :=
  { id := 3, userId := 1, type := "poll",
     content := "Welcher neue Aufguss-Duft soll als nächstes ins Programm?",
     pollData := some MOCK_POLL,
     imageUrl := none, embedUrl := none,
     timestamp := "Vor 3 Tagen", likes := [2], comments := [] }

def MOCK_POSTS : List Post := [MOCK_POST_1, MOCK_POST_2, MOCK_POST_3]

-- ### Date helpers of the source

/-- `getThursdayBefore`: zero the time of day, walk back
    `(getDay() + 7 - 4) % 7` days (a full 7 if already Thursday), and pin the
    result at 22:00 local time. -/
def getThursdayBefore (startDate : DateTime) : DateTime :=
  let d := startDate.date
  let back0 := (dayOfWeek d + 7 - 4) % 7
  let back := if back0 = 0 then 7 else back0
  ⟨subDays d back, 22 * 3600000⟩

/-- `MOCK_FESTIVALS`: one festival starting 10 days from `now`, lasting
    3 days (this default dataset depends on the current date). -/
def MOCK_FESTIVALS (now : DateTime) : List Festival :=
  [{ id := "sommerfest-2024", name := "Sommer-Saunafest 2024",
     startDate := addDays now.date 10,
     endDate := addDays now.date 12,
     rsvpDeadline := getThursdayBefore ⟨addDays now.date 10, now.tod⟩,
     location := "Panoramabad Freudenstadt", numberOfSaunas := 2,
     aufgussTimes := ["10:00", "11:00", "12:00", "13:00", "14:00", "15:00",
                      "16:00", "17:00", "18:00", "19:00", "20:00", "21:00", "22:00"],
     tasks := [⟨1, "Getränke für die Saunanacht organisieren", none⟩,
               ⟨2, "Musik-Playlist erstellen", some 1⟩,
               ⟨3, "Dekoration für den Ruhebereich besorgen", none⟩,
               ⟨4, "Holz für Feuerstelle hacken", some 2⟩],
     participants :=
       MOCK_USERS.map fun u =>
         { userId := u.id,
           status := if u.id = 1 then "attending" else "pending",
           aufgussAvailability := if u.id = 1 then ["10:00", "14:00", "18:00"] else [],
           workHours := 0, hoursLogged := false,
           aufgussProposals := if u.id = 1 then [⟨"1", "Sommernachtstraum"⟩] else [] } }]

-- ### The slot generator (`generateInitialAufguesse`)

/-- A freshly generated, unclaimed slot; the composite id is built exactly as
    in the source: `location-sauna-dateStr-time`. -/
def mkSlot (loc sauna : String) (cd : CalDate) (t : Nat) : Aufguss :=
  { id := loc ++ "-" ++ sauna ++ "-" ++ dateStr cd ++ "-" ++ timeStr t,
    location := loc, sauna := sauna, date := cd, time := t,
    aufgussmeisterId := none, aufgussmeisterName := none, type := none }

/-- Location A times for a weekday: Tue–Thu 14:00–20:00 hourly; Fri/Sat/Sun
    11:00–20:00 hourly; Monday none (minutes since midnight). -/
def fdsTimes (dow : Nat) : List Nat :=
  if 2 ≤ dow ∧ dow ≤ 4 then (List.range' 14 7).map (fun h => h * 60)
  else if 5 ≤ dow ∨ dow = 0 then (List.range' 11 10).map (fun h => h * 60)
  else []

/-- Location B times: every day, 10:30 … 20:30. -/
def urachTimes : List Nat := (List.range' 10 11).map (fun h => h * 60 + 30)

/-- Location C times when open: 10:00 … 20:00 hourly. -/
def hswTimes : List Nat := (List.range' 10 11).map (fun h => h * 60)

/-- The Location C seasonal guard of the source: the day's `Date` (which
    inherits the generation instant's time of day) must be strictly after
    `new Date(year, 7, 31)`, i.e. midnight of August 31 of that day's year. -/
def hswOpen (cd : CalDate) (tod : Nat) : Bool :=
  decide (epochMs ⟨⟨cd.year, 8, 31⟩, 0⟩ < epochMs ⟨cd, tod⟩)

/-- Location A block of one day: per sauna, the weekday-dependent times. -/
def fdsBlock (cd : CalDate) : List Aufguss :=
  (LOCATION_SAUNAS "Panoramabad Freudenstadt").flatMap fun sauna =>
    (fdsTimes (dayOfWeek cd)).map (mkSlot "Panoramabad Freudenstadt" sauna cd)

/-- Location B block of one day. -/
def urachBlock (cd : CalDate) : List Aufguss :=
  (LOCATION_SAUNAS "Albthermen Bad Urach").flatMap fun sauna =>
    urachTimes.map (mkSlot "Albthermen Bad Urach" sauna cd)

/-- Location C block of one day (when the seasonal guard lets it open). -/
def hswBlock (cd : CalDate) : List Aufguss :=
  (LOCATION_SAUNAS "Saunawelt Höchenschwand").flatMap fun sauna =>
    hswTimes.map (mkSlot "Saunawelt Höchenschwand" sauna cd)

/-- One day's slots, all three locations, in source push order. -/
def slotsForDay (tod : Nat) (cd : CalDate) : List Aufguss :=
  fdsBlock cd ++ urachBlock cd ++ (if hswOpen cd tod then hswBlock cd else [])

/-- The extra past slot pushed after the loop ("for testing the days-since
    feature"): dated 15 days before the generation instant, at 18:00, already
    claimed by user 2. -/
def pastTestSlot (now : DateTime) : Aufguss :=
  { id := "test-aufguss-past",
    location := "Panoramabad Freudenstadt", sauna := "80° Kelo Sauna",
    date := subDays now.date 15, time := 18 * 60,
    aufgussmeisterId := some 2, aufgussmeisterName := some "Max Mustermann",
    type := some "Test Aufguss" }

/-- `generateInitialAufguesse`: the 30-day rolling window (today + 0 … 29,
    each day's `Date` keeping the generation time of day) followed by the
    past test slot. -/
def generateInitialAufguesse (now : DateTime) : List Aufguss :=
  ((List.range 30).flatMap fun day => slotsForDay now.tod (addDays now.date day))
  ++ [pastTestSlot now]

-- ### Persistence adapter

/-- `safeJSONParse(key, fallback)`: read the raw string for `key`; if it is
    absent or empty (JS falsiness of `null`/`""`) return the fallback;
    otherwise parse it, and on parse failure (`JSON.parse` throwing, modelled
    as `none`) catch and return the fallback.  The function is total: no
    outcome throws to the caller. -/
def safeJSONParse {α : Type} (store : String → Option String)
    (parse : String → Option α) (key : String) (fallback : α) : α :=
  match store key with
  | none => fallback
  | some s => if s = "" then fallback else
      match parse s with
      | some v => v
      | none => fallback

/-- The browser storage together with the per-collection outcome of
    `JSON.parse` (dynamically typed in the source; modelled as one partial
    decoding function per stored collection type).  The users decoder is
    finer-grained because `loadAllData` runs `initialUsers.map(...)` on the
    parsed value: `none` models `JSON.parse` throwing (caught inside
    `safeJSONParse`), `some none` a value that is valid JSON but not a users
    array (on which the migration `.map` throws and the outer catch of
    `loadAllData` fires), and `some (some us)` a proper users array. -/
structure StorageEnv where
  store : String → Option String
  parseUsers : String → Option (Option (List User))
  parsePosts : String → Option (List Post)
  parseFestivals : String → Option (List Festival)
  parseAufguesse : String → Option (List Aufguss)
  parseAwards : String → Option (List Award)
  parseStringList : String → Option (List String)
  parseBackgrounds : String → Option (List (String × String))

/-- The record returned by `apiClient.loadAllData`. -/
structure LoadedData where
  users : List User
  posts : List Post
  festivals : List Festival
  aufguesse : List Aufguss
  awards : List Award
  aufgussTypes : List String
  availableQuals : List String
  registrationCode : String
  selectedFestivalId : Option String
  persistedBackgrounds : List (String × String)

/-- Data migration applied on load: the retired `pending_approval` status is
    normalized to `active`. -/
def migrateUser (u : User) : User :=
  if u.status = "pending_approval" then { u with status := "active" } else u

/-- `apiClient.loadAllData`: inside the source's `try` block every named
    collection is loaded independently via `safeJSONParse` with its own
    default; `registrationCode` and `selectedFestivalId` are raw strings
    with JS `||` fallbacks.  `safeJSONParse('users', MOCK_USERS)` yields a
    dynamic JSON value (modelled as `Option (List User)`, with fallback
    `some MOCK_USERS`); the migration `initialUsers.map(...)` throws when
    that value is not a users array (`none`), and the outer `catch` then
    resets every collection to its default ("Critical error loading data
    from localStorage. Resetting to defaults."). -/
def loadAllData (env : StorageEnv) (now : DateTime) : LoadedData :=
  match safeJSONParse env.store env.parseUsers "users" (some MOCK_USERS) with
  | none =>
    { users := MOCK_USERS, posts := MOCK_POSTS, festivals := MOCK_FESTIVALS now,
      aufguesse := generateInitialAufguesse now, awards := MOCK_AWARDS,
      aufgussTypes := DEFAULT_AUFGUSS_TYPES,
      availableQuals := DEFAULT_QUALIFICATIONS,
      registrationCode := "123456", selectedFestivalId := none,
      persistedBackgrounds := [] }
  | some initialUsers =>
    { users := initialUsers.map migrateUser,
      posts := safeJSONParse env.store env.parsePosts "posts" MOCK_POSTS,
      festivals := safeJSONParse env.store env.parseFestivals "festivals"
        (MOCK_FESTIVALS now),
      aufguesse := safeJSONParse env.store env.parseAufguesse "aufguesse"
        (generateInitialAufguesse now),
      awards := safeJSONParse env.store env.parseAwards "awards" MOCK_AWARDS,
      aufgussTypes := safeJSONParse env.store env.parseStringList "aufgussTypes"
        DEFAULT_AUFGUSS_TYPES,
      availableQuals := safeJSONParse env.store env.parseStringList "availableQuals"
        DEFAULT_QUALIFICATIONS,
      registrationCode :=
        match env.store "registrationCode" with
        | none => "123456"
        | some s => if s = "" then "123456" else s,
      selectedFestivalId :=
        match env.store "selectedFestivalId" with
        | none => none
        | some s => if s = "" then none else some s,
      persistedBackgrounds := safeJSONParse env.store env.parseBackgrounds
        "persistedBackgrounds" [] }

-- ### Application state handlers

/-- `handleClaimAufguss(aufgussId, type)`: unconditionally rewrite the slot
    with the matching id to be owned by the acting user (there is no check
    that the slot is still free), and increment the acting user's
    `aufgussCount`.  Returns the new slot collection and user collection. -/
def handleClaimAufguss (currentUser : User) (aufgussId : String) (ty : String)
    (aufguesse : List Aufguss) (users : List User) : List Aufguss × List User :=
  ( aufguesse.map fun a =>
      if a.id = aufgussId then
        { a with aufgussmeisterId := some currentUser.id,
                 aufgussmeisterName := some currentUser.name,
                 type := some ty }
      else a,
    users.map fun u =>
      if u.id = currentUser.id then { u with aufgussCount := u.aufgussCount + 1 } else u )

/-- `handleCancelAufguss(aufgussId)`: a no-op when the slot is not found or
    its `aufgussmeisterId` is JS-falsy (`null`, or the number `0`), or when
    the user declines the confirm dialog (`confirm = false`).  Otherwise the
    slot's owner fields are cleared, the former owner's `aufgussCount` is
    decremented floored at 0, and `shortNoticeCancellations` is incremented
    exactly when the slot's instant is less than 24 hours after `now`.
    `now` is `Date.now()` in epoch milliseconds. -/
def handleCancelAufguss (currentUser : User) (confirm : Bool) (now : Int)
    (aufgussId : String) (aufguesse : List Aufguss) (users : List User) :
    List Aufguss × List User :=
  match aufguesse.find? (fun a => a.id == aufgussId) with
  | none => (aufguesse, users)
  | some a =>
    if a.aufgussmeisterId = none ∨ a.aufgussmeisterId = some 0 then (aufguesse, users)
    else if confirm then
      let aufgussDateTime : Int := (toOrdinal a.date : Int) * 86400000 + a.time * 60000
      let isShortNotice := aufgussDateTime - now < 24 * 60 * 60 * 1000
      let meisterId := a.aufgussmeisterId.getD 0
      ( aufguesse.map fun b =>
          if b.id = aufgussId then
            { b with aufgussmeisterId := none, aufgussmeisterName := none, type := none }
          else b,
        users.map fun u =>
          if u.id = meisterId then
            { u with
              aufgussCount := if 0 < u.aufgussCount then u.aufgussCount - 1 else 0,
              shortNoticeCancellations :=
                if isShortNotice then u.shortNoticeCancellations + 1
                else u.shortNoticeCancellations }
          else u )
    else (aufguesse, users)

/-- `handleLikePost(postId)`: strict toggle of the acting user's id in the
    matching post's like list. -/
def handleLikePost (uid : Nat) (postId : Nat) (posts : List Post) : List Post :=
  posts.map fun p =>
    if p.id = postId then
      if p.likes.contains uid then { p with likes := p.likes.filter (fun i => i ≠ uid) }
      else { p with likes := p.likes ++ [uid] }
    else p

/-- `onVote(postId, optionIndex)`: on the matching poll post, a no-op when
    the acting user already voted on any option, else append the user id to
    the option at `optionIndex`. -/
def onVote (uid : Nat) (postId : Nat) (optionIndex : Nat) (posts : List Post) :
    List Post :=
  posts.map fun p =>
    match p.pollData with
    | none => p
    | some pd =>
      if p.id = postId ∧ p.type = "poll" then
        if pd.options.any (fun opt => opt.votes.contains uid) then p
        else
          let newOptions := pd.options.mapIdx fun index opt =>
            if index = optionIndex then { opt with votes := opt.votes ++ [uid] }
            else opt
          { p with pollData := some { pd with options := newOptions } }
      else p

/-- `onDeleteFestival(festivalId)`: behind a confirm dialog, drop the
    festival by id; if it was the selected one, select the first remaining
    festival or the empty string.  Returns the new festival collection and
    the new `selectedFestivalId`. -/
def onDeleteFestival (confirm : Bool) (festivalId : String)
    (festivals : List Festival) (selectedFestivalId : String) :
    List Festival × String :=
  if confirm then
    let newFestivals := festivals.filter (fun f => f.id ≠ festivalId)
    if selectedFestivalId = festivalId then
      (newFestivals, match newFestivals with | [] => "" | f :: _ => f.id)
    else (newFestivals, selectedFestivalId)
  else (festivals, selectedFestivalId)

/-- `handleCreateFestival(festivalData)`: fresh `fest-${Date.now()}` id,
    RSVP deadline from `getThursdayBefore` of the parsed start date (the
    "YYYY-MM-DD" string parses to midnight), no tasks, and one pending
    participant per current user; the new festival is appended and selected. -/
def handleCreateFestival (nowMs : Nat) (users : List User) (name : String)
    (startDate endDate : CalDate) (location : String) (numberOfSaunas : Nat)
    (aufgussTimes : List String) (festivals : List Festival) :
    List Festival × String :=
  let newFestival : Festival :=
    { id := "fest-" ++ toString nowMs, name := name,
      startDate := startDate, endDate := endDate,
      rsvpDeadline := getThursdayBefore ⟨startDate, 0⟩,
      location := location, numberOfSaunas := numberOfSaunas,
      aufgussTimes := aufgussTimes, tasks := [],
      participants := users.map fun u =>
        { userId := u.id, status := "pending", aufgussAvailability := [],
          workHours := 0, hoursLogged := false, aufgussProposals := [] } }
  (festivals ++ [newFestival], newFestival.id)

/-- `handleDeleteQual(qualToDelete)`: remove the qualification from the
    available list and from every user's qualification list. -/
def handleDeleteQual (qualToDelete : String) (availableQuals : List String)
    (users : List User) : List String × List User :=
  ( availableQuals.filter (fun q => q ≠ qualToDelete),
    users.map fun u =>
      { u with qualifications := u.qualifications.filter (fun q => q ≠ qualToDelete) } )

/-- Total number of votes a user holds across all options of one poll. -/
def votesSum (u : Nat) (opts : List PollOption) : Nat :=
  (opts.map fun o => o.votes.count u).sum

-- ### Claim theorems

/-- C5: for every festival start date, `getThursdayBefore` yields the most
    recent Thursday strictly before the start date, at 22:00 local time
    (79200000 ms); if the start date is itself a Thursday the deadline is a
    full 7 days earlier, and if it is a Wednesday the deadline is the
    Thursday of the previous week (6 days earlier). -/
theorem getThursdayBefore_spec (s : DateTime) (hv : s.date.Valid)
    (h7 : 7 ≤ toOrdinal s.date) :
    (getThursdayBefore s).date.Valid
    ∧ (getThursdayBefore s).tod = 79200000
    ∧ dayOfWeek (getThursdayBefore s).date = 4
    ∧ toOrdinal (getThursdayBefore s).date < toOrdinal s.date
    ∧ (∀ t : CalDate, dayOfWeek t = 4 → toOrdinal t < toOrdinal s.date →
        toOrdinal t ≤ toOrdinal (getThursdayBefore s).date)
    ∧ (dayOfWeek s.date = 4 → toOrdinal s.date = toOrdinal (getThursdayBefore s).date + 7)
    ∧ (dayOfWeek s.date = 3 → toOrdinal s.date = toOrdinal (getThursdayBefore s).date + 6) := by
  have hb0lt : (dayOfWeek s.date + 7 - 4) % 7 < 7 := Nat.mod_lt _ (by norm_num)
  set back := if (dayOfWeek s.date + 7 - 4) % 7 = 0 then 7
              else (dayOfWeek s.date + 7 - 4) % 7 with hback
  have h1b : 1 ≤ back ∧ back ≤ 7 := by rw [hback]; split_ifs <;> omega
  have hle : back ≤ toOrdinal s.date := le_trans h1b.2 h7
  obtain ⟨hval, hord⟩ := subDays_spec hv back hle
  have hres : getThursdayBefore s = ⟨subDays s.date back, 22 * 3600000⟩ := rfl
  rw [hres]
  dsimp only
  have hdow : dayOfWeek s.date = (toOrdinal s.date + 6) % 7 := rfl
  have hcong : back % 7 = ((toOrdinal s.date + 6) % 7 + 3) % 7 := by
    rw [hback, hdow]
    split_ifs with hc <;> omega
  obtain ⟨hb1, hb7⟩ := h1b
  refine ⟨hval, by norm_num, ?_, ?_, ?_, ?_, ?_⟩
  · show (toOrdinal (subDays s.date back) + 6) % 7 = 4
    rw [hord]
    omega
  · omega
  · intro t h4 hlt
    have ht : (toOrdinal t + 6) % 7 = 4 := h4
    rw [hord]
    omega
  · intro h4
    rw [hdow] at h4
    rw [hord]
    omega
  · intro h3
    rw [hdow] at h3
    rw [hord]
    omega

/-- Witness for C5 at the concrete Wednesday 2026-10-14: the deadline is
    Thursday 2026-10-08 at 22:00 (the Thursday of the previous week). -/
theorem getThursdayBefore_spec_witness :
    CalDate.Valid ⟨2026, 10, 14⟩
    ∧ 7 ≤ toOrdinal ⟨2026, 10, 14⟩
    ∧ getThursdayBefore ⟨⟨2026, 10, 14⟩, 0⟩ = ⟨⟨2026, 10, 8⟩, 79200000⟩
    ∧ dayOfWeek (getThursdayBefore ⟨⟨2026, 10, 14⟩, 0⟩).date = 4 :=
  ⟨by decide, by decide, by decide,
   (getThursdayBefore_spec ⟨⟨2026, 10, 14⟩, 0⟩ (by decide) (by decide)).2.2.1⟩

/-- C7: deleting a festival (with the confirm dialog accepted) removes the
    festival with that id; if it was the selected one, the selection moves to
    the first remaining festival's id or becomes the empty string when none
    remains; otherwise the selection is unchanged. -/
theorem onDeleteFestival_true (festivalId : String) (festivals : List Festival)
    (sel : String) :
    onDeleteFestival true festivalId festivals sel
      = (festivals.filter (fun f => f.id ≠ festivalId),
         if sel = festivalId then
           (match festivals.filter (fun f => f.id ≠ festivalId) with
            | [] => "" | f :: _ => f.id)
         else sel) := by
  unfold onDeleteFestival
  split_ifs <;> first | rfl | exact absurd rfl (by assumption)

theorem deleteFestival_spec (festivalId : String) (festivals : List Festival)
    (sel : String) :
    (∀ f, f ∈ (onDeleteFestival true festivalId festivals sel).1
        ↔ (f ∈ festivals ∧ f.id ≠ festivalId))
    ∧ (sel = festivalId → (onDeleteFestival true festivalId festivals sel).1 = [] →
        (onDeleteFestival true festivalId festivals sel).2 = "")
    ∧ (sel = festivalId → ∀ f0 rest,
        (onDeleteFestival true festivalId festivals sel).1 = f0 :: rest →
        (onDeleteFestival true festivalId festivals sel).2 = f0.id)
    ∧ (sel ≠ festivalId →
        (onDeleteFestival true festivalId festivals sel).2 = sel) := by
  rw [onDeleteFestival_true]
  refine ⟨?_, ?_, ?_, ?_⟩
  · intro f
    simp [List.mem_filter]
  · intro hsel hnil
    dsimp only at hnil
    rw [if_pos hsel, hnil]
  · intro hsel f0 rest hcons
    dsimp only at hcons
    rw [if_pos hsel, hcons]
  · intro hsel
    rw [if_neg hsel]

/-- A concrete festival used in witness instances. -/
def festA : Festival :=
  { id := "a", name := "A", startDate := ⟨2025, 1, 1⟩, endDate := ⟨2025, 1, 2⟩,
    rsvpDeadline := ⟨⟨2024, 12, 26⟩, 79200000⟩, location := "L",
    numberOfSaunas := 1, aufgussTimes := [], tasks := [], participants := [] }

/-- A second concrete festival used in witness instances. -/
def festB : Festival :=
  { id := "b", name := "B", startDate := ⟨2025, 2, 1⟩, endDate := ⟨2025, 2, 2⟩,
    rsvpDeadline := ⟨⟨2025, 1, 30⟩, 79200000⟩, location := "L",
    numberOfSaunas := 1, aufgussTimes := [], tasks := [], participants := [] }

/-- Witness for C7: deleting the selected festival "a" when one other
    festival "b" remains moves the selection to "b". -/
theorem deleteFestival_spec_witness :
    (onDeleteFestival true "a" [festA, festB] "a").2 = "b" := by
  have h := (deleteFestival_spec "a" [festA, festB] "a").2.2.1 rfl festB [] (by decide)
  exact h

/-- C10: deleting an available qualification removes it from the available
    list and from every user's qualification list, leaving every other user
    field unchanged. -/
theorem deleteQual_spec (qual : String) (availableQuals : List String)
    (users : List User) :
    (∀ q, q ∈ (handleDeleteQual qual availableQuals users).1
        ↔ (q ∈ availableQuals ∧ q ≠ qual))
    ∧ (handleDeleteQual qual availableQuals users).2.length = users.length
    ∧ (∀ (i : Nat) (u v : User), users[i]? = some u →
        (handleDeleteQual qual availableQuals users).2[i]? = some v →
        v = { u with qualifications := v.qualifications }
        ∧ (∀ q, q ∈ v.qualifications ↔ (q ∈ u.qualifications ∧ q ≠ qual))) := by
  refine ⟨?_, ?_, ?_⟩
  · intro q
    simp [handleDeleteQual, List.mem_filter]
  · simp [handleDeleteQual]
  · intro i u v hu hv
    simp only [handleDeleteQual, List.getElem?_map, hu, Option.map_some'] at hv
    obtain rfl : ({ u with qualifications := u.qualifications.filter (fun q => q ≠ qual) } : User) = v :=
      Option.some.inj hv
    exact ⟨rfl, by intro q; simp [List.mem_filter]⟩

/-- Witness for C10 on the mock data: deleting "Saunameister Basic" empties
    Max Mustermann's qualification list but changes no other field. -/
theorem deleteQual_spec_witness :
    MOCK_USERS[1]? = some MOCK_USER_2
    ∧ (handleDeleteQual "Saunameister Basic" DEFAULT_QUALIFICATIONS MOCK_USERS).2[1]?
        = some { MOCK_USER_2 with qualifications := [] }
    ∧ ({ MOCK_USER_2 with qualifications := [] } : User)
        = { MOCK_USER_2 with
            qualifications := (({ MOCK_USER_2 with qualifications := [] } : User)).qualifications } := by
  refine ⟨by decide, by decide, ?_⟩
  exact ((deleteQual_spec "Saunameister Basic" DEFAULT_QUALIFICATIONS MOCK_USERS).2.2
    1 MOCK_USER_2 { MOCK_USER_2 with qualifications := [] } (by decide) (by decide)).1

theorem safeJSONParse_congr {α : Type} (s1 s2 : String → Option String)
    (parse : String → Option α) (key : String) (fallback : α)
    (h : s1 key = s2 key) :
    safeJSONParse s1 parse key fallback = safeJSONParse s2 parse key fallback := by
  unfold safeJSONParse
  rw [h]

/-- A storage environment where the users key holds "42" — valid JSON that
    is not a users array (decoded as `some none`, so the migration `.map`
    throws) — while the posts key holds a stored, parseable posts value. -/
def cexEnv : StorageEnv :=
  { store := fun k =>
      if k = "users" then some "42"
      else if k = "posts" then some "[]"
      else none,
    parseUsers := fun s => if s = "42" then some none else none,
    parsePosts := fun s => if s = "[]" then some [] else none,
    parseFestivals := fun _ => none, parseAufguesse := fun _ => none,
    parseAwards := fun _ => none, parseStringList := fun _ => none,
    parseBackgrounds := fun _ => none }

/-- Counterexample for C8 as stated: one corrupted key CAN prevent the other
    collections from loading their stored values.  The users key holds valid
    JSON that is not a users array, so the migration `.map` throws and the
    outer catch of `loadAllData` resets everything: the posts collection
    comes back as the mock default even though storage holds a parseable
    posts value. -/
theorem load_users_junk_resets_posts_cex :
    cexEnv.store "posts" = some "[]"
    ∧ cexEnv.parsePosts "[]" = some []
    ∧ cexEnv.store "users" = some "42"
    ∧ cexEnv.parseUsers "42" = some none
    ∧ (loadAllData cexEnv ⟨⟨2025, 1, 1⟩, 0⟩).posts = MOCK_POSTS
    ∧ (loadAllData cexEnv ⟨⟨2025, 1, 1⟩, 0⟩).posts ≠ [] := by
  have hposts : (loadAllData cexEnv ⟨⟨2025, 1, 1⟩, 0⟩).posts = MOCK_POSTS := rfl
  refine ⟨rfl, rfl, rfl, rfl, hposts, ?_⟩
  rw [hposts]
  decide

/-- C8 (amended): `load(key, fallback)` returns the fallback when the stored
    value is missing or fails to parse (it is a total function: no outcome
    throws); in the bulk load each named collection applies its default
    independently — changing the stored value of one key never changes what
    any other collection loads — provided the users value does not take the
    junk path; and when the stored users value is valid JSON that is not a
    users array, the migration step throws and the outer catch resets every
    collection to its default, ignoring all other stored values. -/
theorem load_spec :
    (∀ (α : Type) (store : String → Option String) (parse : String → Option α)
        (key : String) (fallback : α),
      (store key = none → safeJSONParse store parse key fallback = fallback)
      ∧ (∀ s, store key = some s → parse s = none →
          safeJSONParse store parse key fallback = fallback))
    ∧ (∀ (env : StorageEnv) (store2 : String → Option String) (now : DateTime)
        (k : String), (∀ k2, k2 ≠ k → store2 k2 = env.store k2) →
        safeJSONParse env.store env.parseUsers "users" (some MOCK_USERS) ≠ none →
        safeJSONParse store2 env.parseUsers "users" (some MOCK_USERS) ≠ none →
        (k ≠ "users" → (loadAllData { env with store := store2 } now).users
            = (loadAllData env now).users)
        ∧ (k ≠ "posts" → (loadAllData { env with store := store2 } now).posts
            = (loadAllData env now).posts)
        ∧ (k ≠ "festivals" → (loadAllData { env with store := store2 } now).festivals
            = (loadAllData env now).festivals)
        ∧ (k ≠ "aufguesse" → (loadAllData { env with store := store2 } now).aufguesse
            = (loadAllData env now).aufguesse)
        ∧ (k ≠ "awards" → (loadAllData { env with store := store2 } now).awards
            = (loadAllData env now).awards)
        ∧ (k ≠ "aufgussTypes" → (loadAllData { env with store := store2 } now).aufgussTypes
            = (loadAllData env now).aufgussTypes)
        ∧ (k ≠ "availableQuals" →
            (loadAllData { env with store := store2 } now).availableQuals
              = (loadAllData env now).availableQuals)
        ∧ (k ≠ "registrationCode" →
            (loadAllData { env with store := store2 } now).registrationCode
              = (loadAllData env now).registrationCode)
        ∧ (k ≠ "selectedFestivalId" →
            (loadAllData { env with store := store2 } now).selectedFestivalId
              = (loadAllData env now).selectedFestivalId)
        ∧ (k ≠ "persistedBackgrounds" →
            (loadAllData { env with store := store2 } now).persistedBackgrounds
              = (loadAllData env now).persistedBackgrounds))
    ∧ (∀ (env : StorageEnv) (now : DateTime) (s : String),
        env.store "users" = some s → s ≠ "" → env.parseUsers s = some none →
        loadAllData env now
          = { users := MOCK_USERS, posts := MOCK_POSTS,
              festivals := MOCK_FESTIVALS now,
              aufguesse := generateInitialAufguesse now, awards := MOCK_AWARDS,
              aufgussTypes := DEFAULT_AUFGUSS_TYPES,
              availableQuals := DEFAULT_QUALIFICATIONS,
              registrationCode := "123456", selectedFestivalId := none,
              persistedBackgrounds := [] }) := by
  refine ⟨?_, ?_, ?_⟩
  · intro α store parse key fallback
    constructor
    · intro hnone
      unfold safeJSONParse
      rw [hnone]
    · intro s hs hp
      unfold safeJSONParse
      rw [hs]
      dsimp only
      split_ifs with he
      · rfl
      · rw [hp]
  · intro env store2 now k hk h1 h2
    cases hc1 : safeJSONParse env.store env.parseUsers "users" (some MOCK_USERS) with
    | none => exact absurd hc1 h1
    | some us1 =>
    cases hc2 : safeJSONParse store2 env.parseUsers "users" (some MOCK_USERS) with
    | none => exact absurd hc2 h2
    | some us2 =>
    refine ⟨?_, ?_, ?_, ?_, ?_, ?_, ?_, ?_, ?_, ?_⟩ <;> intro hne <;>
      unfold loadAllData <;> dsimp only <;> rw [hc1, hc2] <;> dsimp only
    · have hsame : safeJSONParse store2 env.parseUsers "users" (some MOCK_USERS)
          = safeJSONParse env.store env.parseUsers "users" (some MOCK_USERS) :=
        safeJSONParse_congr store2 env.store _ _ _ (hk _ (Ne.symm hne))
      rw [hc1, hc2] at hsame
      rw [Option.some.inj hsame]
    · exact safeJSONParse_congr store2 env.store _ _ _ (hk _ (Ne.symm hne))
    · exact safeJSONParse_congr store2 env.store _ _ _ (hk _ (Ne.symm hne))
    · exact safeJSONParse_congr store2 env.store _ _ _ (hk _ (Ne.symm hne))
    · exact safeJSONParse_congr store2 env.store _ _ _ (hk _ (Ne.symm hne))
    · exact safeJSONParse_congr store2 env.store _ _ _ (hk _ (Ne.symm hne))
    · exact safeJSONParse_congr store2 env.store _ _ _ (hk _ (Ne.symm hne))
    · rw [hk _ (Ne.symm hne)]
    · rw [hk _ (Ne.symm hne)]
    · exact safeJSONParse_congr store2 env.store _ _ _ (hk _ (Ne.symm hne))
  · intro env now s hstore hs hparse
    have hres : safeJSONParse env.store env.parseUsers "users" (some MOCK_USERS)
        = none := by
      unfold safeJSONParse
      rw [hstore]
      dsimp only
      rw [if_neg hs, hparse]
    unfold loadAllData
    rw [hres]

/-- A storage environment whose store is empty and whose decoders always
    fail, used in witness instances. -/
def demoEnv : StorageEnv :=
  { store := fun _ => none, parseUsers := fun _ => none, parsePosts := fun _ => none,
    parseFestivals := fun _ => none, parseAufguesse := fun _ => none,
    parseAwards := fun _ => none, parseStringList := fun _ => none,
    parseBackgrounds := fun _ => none }

/-- A store holding an (unparseable) value only under the key "users". -/
def demoStore2 : String → Option String :=
  fun k => if k = "users" then some "###corrupt###" else none

/-- Witness for C8 (amended): a missing key loads its fallback; corrupting
    the "users" key with an unparseable string (the caught JSON.parse path)
    does not change what the posts collection loads; and on the junk-users
    path the users collection is the mock default. -/
theorem load_spec_witness :
    ((fun _ => (none : Option String)) "users" = none)
    ∧ safeJSONParse (fun _ => none) (fun _ => (none : Option Nat)) "users" 7 = 7
    ∧ (loadAllData { demoEnv with store := demoStore2 } ⟨⟨2025, 1, 1⟩, 0⟩).posts
        = (loadAllData demoEnv ⟨⟨2025, 1, 1⟩, 0⟩).posts
    ∧ (loadAllData cexEnv ⟨⟨2025, 1, 1⟩, 0⟩).users = MOCK_USERS := by
  refine ⟨rfl, ?_, ?_, ?_⟩
  · exact (load_spec.1 Nat (fun _ => none) (fun _ => none) "users" 7).1 rfl
  · refine (load_spec.2.1 demoEnv demoStore2 ⟨⟨2025, 1, 1⟩, 0⟩ "users" ?_
      (by decide) (by decide)).2.1 (by decide)
    intro k2 hk2
    simp [demoStore2, demoEnv, hk2]
  · have h := load_spec.2.2 cexEnv ⟨⟨2025, 1, 1⟩, 0⟩ "42" rfl (by decide) rfl
    rw [h]

/-- C6: `handleLikePost` is a strict toggle: it adds the acting user's id to
    the matching post's like list if absent and removes it if present; every
    other post is untouched; toggling twice returns the like set (membership)
    to its original state and changes no other field. -/
theorem likePost_spec (uid pid : Nat) (posts : List Post) :
    (handleLikePost uid pid posts).length = posts.length
    ∧ (∀ (i : Nat) (p : Post), posts[i]? = some p →
        (p.id ≠ pid →
          (handleLikePost uid pid posts)[i]? = some p
          ∧ (handleLikePost uid pid (handleLikePost uid pid posts))[i]? = some p)
        ∧ (p.id = pid →
          (∃ v : Post, (handleLikePost uid pid posts)[i]? = some v
            ∧ v = { p with likes := v.likes }
            ∧ (uid ∉ p.likes → v.likes = p.likes ++ [uid])
            ∧ (uid ∈ p.likes → ∀ x, x ∈ v.likes ↔ (x ∈ p.likes ∧ x ≠ uid)))
          ∧ (∃ w : Post,
              (handleLikePost uid pid (handleLikePost uid pid posts))[i]? = some w
              ∧ w = { p with likes := w.likes }
              ∧ (∀ x, x ∈ w.likes ↔ x ∈ p.likes)))) := by
  constructor
  · simp [handleLikePost]
  · intro i p hp
    have h1 : (handleLikePost uid pid posts)[i]?
        = Option.map (fun p =>
            if p.id = pid then
              if p.likes.contains uid then
                { p with likes := p.likes.filter (fun i => i ≠ uid) }
              else { p with likes := p.likes ++ [uid] }
            else p) posts[i]? := by
      unfold handleLikePost
      exact List.getElem?_map _ _ _
    have h2 : (handleLikePost uid pid (handleLikePost uid pid posts))[i]?
        = Option.map (fun p =>
            if p.id = pid then
              if p.likes.contains uid then
                { p with likes := p.likes.filter (fun i => i ≠ uid) }
              else { p with likes := p.likes ++ [uid] }
            else p)
          (Option.map (fun p =>
            if p.id = pid then
              if p.likes.contains uid then
                { p with likes := p.likes.filter (fun i => i ≠ uid) }
              else { p with likes := p.likes ++ [uid] }
            else p) posts[i]?) := by
      unfold handleLikePost
      rw [List.getElem?_map, List.getElem?_map]
    rw [hp] at h1 h2
    simp only [Option.map_some'] at h1 h2
    constructor
    · intro hne
      rw [if_neg hne] at h1 h2
      rw [if_neg hne] at h2
      exact ⟨h1, h2⟩
    · intro heq
      by_cases hin : uid ∈ p.likes
      · have hc : p.likes.contains uid = true := by
          simpa [List.elem_iff] using hin
        rw [if_pos heq, if_pos hc] at h1
        rw [if_pos heq, if_pos hc] at h2
        have hc2 : (({ p with likes := p.likes.filter (fun i => i ≠ uid) } : Post)).likes.contains uid = false := by
          simp [List.elem_iff, List.mem_filter]
        rw [if_pos heq, hc2] at h2
        simp only [Bool.false_eq_true, if_false] at h2
        refine ⟨⟨_, h1, rfl, ?_, ?_⟩, ⟨_, h2, rfl, ?_⟩⟩
        · intro hout; exact absurd hin hout
        · intro _ x
          simp [List.mem_filter]
        · intro x
          constructor
          · intro hx
            rcases List.mem_append.mp hx with hx1 | hx1
            · exact (List.mem_filter.mp hx1).1
            · simp only [List.mem_singleton] at hx1
              rw [hx1]; exact hin
          · intro hx
            by_cases hxu : x = uid
            · exact List.mem_append.mpr (Or.inr (by simp [hxu]))
            · exact List.mem_append.mpr (Or.inl (List.mem_filter.mpr ⟨hx, by simpa using hxu⟩))
      · have hc : p.likes.contains uid = false := by
          simpa [List.elem_iff] using hin
        rw [if_pos heq, hc] at h1
        simp only [Bool.false_eq_true, if_false] at h1
        rw [if_pos heq, hc] at h2
        simp only [Bool.false_eq_true, if_false] at h2
        have hc2 : (({ p with likes := p.likes ++ [uid] } : Post)).likes.contains uid = true := by
          simp [List.elem_iff]
        rw [if_pos heq, hc2] at h2
        have hfil : (p.likes ++ [uid]).filter (fun i => i ≠ uid) = p.likes := by
          rw [List.filter_append]
          have hl : p.likes.filter (fun i => i ≠ uid) = p.likes :=
            List.filter_eq_self.mpr (fun a ha => by
              simp only [ne_eq, decide_eq_true_eq]
              intro hau; rw [hau] at ha; exact hin ha)
          have hr : ([uid] : List Nat).filter (fun i => i ≠ uid) = [] := by simp
          rw [hl, hr, List.append_nil]
        refine ⟨⟨_, h1, rfl, fun _ => rfl, fun hinn => absurd hinn hin⟩, ⟨_, h2, ?_, ?_⟩⟩
        · show ({ p with likes := (p.likes ++ [uid]).filter (fun i => i ≠ uid) } : Post)
            = { p with likes := ((⟨p.id, p.userId, p.type, p.content, p.pollData, p.imageUrl, p.embedUrl, p.timestamp, (p.likes ++ [uid]).filter (fun i => i ≠ uid), p.comments⟩ : Post)).likes }
          rfl
        · intro x
          show x ∈ (p.likes ++ [uid]).filter (fun i => i ≠ uid) ↔ x ∈ p.likes
          rw [hfil]

/-- Witness for C6 on the mock data: toggling post 1 twice for user 1 (who
    already liked it) restores the like membership. -/
theorem likePost_spec_witness :
    MOCK_POSTS[0]? = some MOCK_POST_1
    ∧ MOCK_POST_1.id = 1
    ∧ ∃ w : Post, (handleLikePost 1 1 (handleLikePost 1 1 MOCK_POSTS))[0]? = some w
        ∧ (∀ x, x ∈ w.likes ↔ x ∈ MOCK_POST_1.likes) := by
  refine ⟨by decide, by decide, ?_⟩
  obtain ⟨-, hw⟩ := ((likePost_spec 1 1 MOCK_POSTS).2 0 MOCK_POST_1 (by decide)).2 rfl
  obtain ⟨w, hw1, -, hw3⟩ := hw
  exact ⟨w, hw1, hw3⟩

/-- Counterexample for C1 as stated: `handleClaimAufguss` is not a no-op on
    an already-claimed slot.  The past test slot is claimed (owner id 2),
    yet invoking the claim handler on it as user 3 changes the slot (the
    owner is overwritten) and changes a user's `aufgussCount`. -/
theorem claimAufguss_claimed_not_noop_cex :
    (pastTestSlot ⟨⟨2025, 8, 1⟩, 0⟩).aufgussmeisterId = some 2
    ∧ (handleClaimAufguss MOCK_USER_3 "test-aufguss-past" "Kräutersud"
        [pastTestSlot ⟨⟨2025, 8, 1⟩, 0⟩] MOCK_USERS).1 ≠ [pastTestSlot ⟨⟨2025, 8, 1⟩, 0⟩]
    ∧ (handleClaimAufguss MOCK_USER_3 "test-aufguss-past" "Kräutersud"
        [pastTestSlot ⟨⟨2025, 8, 1⟩, 0⟩] MOCK_USERS).2.map User.aufgussCount
      ≠ MOCK_USERS.map User.aufgussCount := by
  refine ⟨by decide, by decide, by decide⟩

/-- C1 (amended): the claim handler performs no already-claimed check.  For
    every slot whose id matches — claimed or not — it overwrites the owner
    fields with the acting user and the chosen type, and it always increments
    the acting user's `aufgussCount` by one; all other slots and users are
    unchanged.  (For an unclaimed slot this coincides with the spec; the
    unclaimed-only guard exists solely in the UI, which renders the claim
    button only on free slots.) -/
theorem claimAufguss_spec (cu : User) (aufgussId ty : String)
    (aufguesse : List Aufguss) (users : List User) :
    (handleClaimAufguss cu aufgussId ty aufguesse users).1.length = aufguesse.length
    ∧ (handleClaimAufguss cu aufgussId ty aufguesse users).2.length = users.length
    ∧ (∀ (i : Nat) (a : Aufguss), aufguesse[i]? = some a →
        (a.id = aufgussId →
          (handleClaimAufguss cu aufgussId ty aufguesse users).1[i]?
            = some { a with
                aufgussmeisterId := some cu.id,
                aufgussmeisterName := some cu.name,
                type := some ty })
        ∧ (a.id ≠ aufgussId →
          (handleClaimAufguss cu aufgussId ty aufguesse users).1[i]? = some a))
    ∧ (∀ (i : Nat) (u : User), users[i]? = some u →
        (u.id = cu.id →
          (handleClaimAufguss cu aufgussId ty aufguesse users).2[i]?
            = some { u with aufgussCount := u.aufgussCount + 1 })
        ∧ (u.id ≠ cu.id →
          (handleClaimAufguss cu aufgussId ty aufguesse users).2[i]? = some u)) := by
  refine ⟨by simp [handleClaimAufguss], by simp [handleClaimAufguss], ?_, ?_⟩
  · intro i a ha
    have h1 : (handleClaimAufguss cu aufgussId ty aufguesse users).1[i]?
        = Option.map (fun a =>
            if a.id = aufgussId then
              { a with
                aufgussmeisterId := some cu.id,
                aufgussmeisterName := some cu.name,
                type := some ty }
            else a) aufguesse[i]? :=
      List.getElem?_map _ _ _
    rw [ha, Option.map_some'] at h1
    constructor
    · intro heq
      rw [if_pos heq] at h1
      exact h1
    · intro hne
      rw [if_neg hne] at h1
      exact h1
  · intro i u hu
    have h2 : (handleClaimAufguss cu aufgussId ty aufguesse users).2[i]?
        = Option.map (fun u =>
            if u.id = cu.id then { u with aufgussCount := u.aufgussCount + 1 } else u)
          users[i]? :=
      List.getElem?_map _ _ _
    rw [hu, Option.map_some'] at h2
    constructor
    · intro heq
      rw [if_pos heq] at h2
      exact h2
    · intro hne
      rw [if_neg hne] at h2
      exact h2

/-- Witness for C1 (amended) on an unclaimed mock slot: claiming it as user 3
    sets the owner fields and bumps the count from 0 to 1. -/
theorem claimAufguss_spec_witness :
    ([mkSlot "Panoramabad Freudenstadt" "80° Kelo Sauna" ⟨2025, 7, 1⟩ 840] :
        List Aufguss)[0]?
      = some (mkSlot "Panoramabad Freudenstadt" "80° Kelo Sauna" ⟨2025, 7, 1⟩ 840)
    ∧ (mkSlot "Panoramabad Freudenstadt" "80° Kelo Sauna" ⟨2025, 7, 1⟩ 840).id
      = (mkSlot "Panoramabad Freudenstadt" "80° Kelo Sauna" ⟨2025, 7, 1⟩ 840).id
    ∧ (handleClaimAufguss MOCK_USER_3
        (mkSlot "Panoramabad Freudenstadt" "80° Kelo Sauna" ⟨2025, 7, 1⟩ 840).id
        "Kräutersud"
        [mkSlot "Panoramabad Freudenstadt" "80° Kelo Sauna" ⟨2025, 7, 1⟩ 840]
        MOCK_USERS).1[0]?
      = some { mkSlot "Panoramabad Freudenstadt" "80° Kelo Sauna" ⟨2025, 7, 1⟩ 840 with
               aufgussmeisterId := some MOCK_USER_3.id,
               aufgussmeisterName := some MOCK_USER_3.name,
               type := some "Kräutersud" } := by
  refine ⟨rfl, rfl, ?_⟩
  exact ((claimAufguss_spec MOCK_USER_3 _ "Kräutersud" _ MOCK_USERS).2.2.1
    0 _ rfl).1 rfl

/-- C3: cancelling is a no-op on a missing or unclaimed slot; on a claimed
    slot (owner `m`, with the user confirming) it clears the owner fields,
    decrements the former owner's `aufgussCount` floored at 0, and increments
    that user's `shortNoticeCancellations` exactly when the slot's date-time
    is less than 24 hours away from the moment of cancellation; all other
    slots and users are unchanged. -/
theorem cancelAufguss_spec (cu : User) (now : Int) (aufgussId : String)
    (aufguesse : List Aufguss) (users : List User) :
    (aufguesse.find? (fun a => a.id == aufgussId) = none →
      ∀ confirm, handleCancelAufguss cu confirm now aufgussId aufguesse users
        = (aufguesse, users))
    ∧ (∀ a : Aufguss, aufguesse.find? (fun a => a.id == aufgussId) = some a →
        a.aufgussmeisterId = none →
        ∀ confirm, handleCancelAufguss cu confirm now aufgussId aufguesse users
          = (aufguesse, users))
    ∧ (∀ (a : Aufguss) (m : Nat), aufguesse.find? (fun a => a.id == aufgussId) = some a →
        a.aufgussmeisterId = some m → m ≠ 0 →
        (∀ (i : Nat) (b : Aufguss), aufguesse[i]? = some b →
          (b.id = aufgussId →
            (handleCancelAufguss cu true now aufgussId aufguesse users).1[i]?
              = some { b with
                  aufgussmeisterId := none,
                  aufgussmeisterName := none,
                  type := none })
          ∧ (b.id ≠ aufgussId →
            (handleCancelAufguss cu true now aufgussId aufguesse users).1[i]? = some b))
        ∧ (∀ (i : Nat) (u : User), users[i]? = some u →
          (u.id = m →
            (handleCancelAufguss cu true now aufgussId aufguesse users).2[i]?
              = some { u with
                  aufgussCount := if 0 < u.aufgussCount then u.aufgussCount - 1 else 0,
                  shortNoticeCancellations :=
                    if (toOrdinal a.date : Int) * 86400000 + a.time * 60000 - now
                        < 24 * 60 * 60 * 1000
                    then u.shortNoticeCancellations + 1
                    else u.shortNoticeCancellations })
          ∧ (u.id ≠ m →
            (handleCancelAufguss cu true now aufgussId aufguesse users).2[i]? = some u))) := by
  refine ⟨?_, ?_, ?_⟩
  · intro hnone confirm
    unfold handleCancelAufguss
    rw [hnone]
  · intro a hfind hown confirm
    unfold handleCancelAufguss
    rw [hfind]
    dsimp only
    rw [if_pos (Or.inl hown)]
  · intro a m hfind hown hm
    have hres : handleCancelAufguss cu true now aufgussId aufguesse users
        = ( aufguesse.map fun b =>
              if b.id = aufgussId then
                { b with
                  aufgussmeisterId := none,
                  aufgussmeisterName := none,
                  type := none }
              else b,
            users.map fun u =>
              if u.id = m then
                { u with
                  aufgussCount := if 0 < u.aufgussCount then u.aufgussCount - 1 else 0,
                  shortNoticeCancellations :=
                    if (toOrdinal a.date : Int) * 86400000 + a.time * 60000 - now
                        < 24 * 60 * 60 * 1000
                    then u.shortNoticeCancellations + 1
                    else u.shortNoticeCancellations }
              else u ) := by
      unfold handleCancelAufguss
      rw [hfind]
      dsimp only
      have hne : ¬(a.aufgussmeisterId = none ∨ a.aufgussmeisterId = some 0) := by
        intro hor
        rcases hor with h | h
        · rw [hown] at h; exact Option.noConfusion h
        · rw [hown] at h
          exact hm (Option.some.inj h)
      rw [if_neg hne, if_pos rfl, hown]
      rfl
    rw [hres]
    constructor
    · intro i b hb
      have h1 : (aufguesse.map fun b =>
            if b.id = aufgussId then
              { b with
                aufgussmeisterId := none,
                aufgussmeisterName := none,
                type := none }
            else b)[i]?
          = Option.map (fun b =>
              if b.id = aufgussId then
                { b with
                  aufgussmeisterId := none,
                  aufgussmeisterName := none,
                  type := none }
              else b) aufguesse[i]? :=
        List.getElem?_map _ _ _
      rw [hb, Option.map_some'] at h1
      constructor
      · intro heq; rw [if_pos heq] at h1; exact h1
      · intro hne; rw [if_neg hne] at h1; exact h1
    · intro i u hu
      have h2 : (users.map fun u =>
            if u.id = m then
              { u with
                aufgussCount := if 0 < u.aufgussCount then u.aufgussCount - 1 else 0,
                shortNoticeCancellations :=
                  if (toOrdinal a.date : Int) * 86400000 + a.time * 60000 - now
                      < 24 * 60 * 60 * 1000
                  then u.shortNoticeCancellations + 1
                  else u.shortNoticeCancellations }
            else u)[i]?
          = Option.map (fun u =>
              if u.id = m then
                { u with
                  aufgussCount := if 0 < u.aufgussCount then u.aufgussCount - 1 else 0,
                  shortNoticeCancellations :=
                    if (toOrdinal a.date : Int) * 86400000 + a.time * 60000 - now
                        < 24 * 60 * 60 * 1000
                    then u.shortNoticeCancellations + 1
                    else u.shortNoticeCancellations }
              else u) users[i]? :=
        List.getElem?_map _ _ _
      rw [hu, Option.map_some'] at h2
      constructor
      · intro heq; rw [if_pos heq] at h2; exact h2
      · intro hne; rw [if_neg hne] at h2; exact h2

/-- Witness for C3: cancelling the claimed past test slot (owner Max, id 2)
    two hours before its start decrements his count 12 → 11 and bumps his
    short-notice counter 1 → 2. -/
theorem cancelAufguss_spec_witness :
    ([pastTestSlot ⟨⟨2025, 8, 1⟩, 0⟩].find? (fun a => a.id == "test-aufguss-past")
        = some (pastTestSlot ⟨⟨2025, 8, 1⟩, 0⟩))
    ∧ (pastTestSlot ⟨⟨2025, 8, 1⟩, 0⟩).aufgussmeisterId = some 2
    ∧ MOCK_USERS[1]? = some MOCK_USER_2
    ∧ (handleCancelAufguss MOCK_USER_2 true
        ((toOrdinal (⟨2025, 7, 17⟩ : CalDate) : Int) * 86400000 + 1080 * 60000 - 7200000)
        "test-aufguss-past" [pastTestSlot ⟨⟨2025, 8, 1⟩, 0⟩] MOCK_USERS).2[1]?
      = some { MOCK_USER_2 with aufgussCount := 11, shortNoticeCancellations := 2 } := by
  refine ⟨rfl, rfl, rfl, ?_⟩
  have h := ((cancelAufguss_spec MOCK_USER_2
      ((toOrdinal (⟨2025, 7, 17⟩ : CalDate) : Int) * 86400000 + 1080 * 60000 - 7200000)
      "test-aufguss-past" [pastTestSlot ⟨⟨2025, 8, 1⟩, 0⟩] MOCK_USERS).2.2
      (pastTestSlot ⟨⟨2025, 8, 1⟩, 0⟩) 2 rfl rfl (by decide)).2 1 MOCK_USER_2 rfl
  have h2 := h.1 rfl
  rw [h2]
  decide

-- ### Poll vote helpers (C4)

theorem mapIdx_eq_self {α : Type} (l : List α) (f : Nat → α → α)
    (h : ∀ i a, f i a = a) : l.mapIdx f = l := by
  induction l generalizing f with
  | nil => simp
  | cons x t ih => rw [List.mapIdx_cons, h 0 x, ih _ (fun i a => h (i + 1) a)]

theorem getElem?_mapIdx {α β : Type} (l : List α) (f : Nat → α → β) (j : Nat) :
    (l.mapIdx f)[j]? = Option.map (f j) l[j]? := by
  induction l generalizing f j with
  | nil => simp
  | cons x t ih =>
    rw [List.mapIdx_cons]
    cases j with
    | zero => simp
    | succ k => simpa using ih (fun i => f (i + 1)) k

theorem votesSum_cons (u : Nat) (o : PollOption) (t : List PollOption) :
    votesSum u (o :: t) = o.votes.count u + votesSum u t := by
  simp [votesSum]

theorem votesSum_eq_zero (u : Nat) (opts : List PollOption)
    (h : ∀ o ∈ opts, u ∉ o.votes) : votesSum u opts = 0 := by
  induction opts with
  | nil => rfl
  | cons o t ih =>
    rw [votesSum_cons, List.count_eq_zero.mpr (h o (List.mem_cons_self o t)),
      ih (fun x hx => h x (List.mem_cons_of_mem o hx))]

theorem votesSum_mapIdx_vote (u uid oi : Nat) (opts : List PollOption) :
    votesSum u (opts.mapIdx fun index opt =>
        if index = oi then { opt with votes := opt.votes ++ [uid] } else opt)
      = votesSum u opts + (if u = uid ∧ oi < opts.length then 1 else 0) := by
  induction opts generalizing oi with
  | nil => simp [votesSum]
  | cons o t ih =>
    rw [List.mapIdx_cons]
    by_cases h0 : oi = 0
    · subst h0
      rw [if_pos rfl]
      have ht : t.mapIdx (fun i opt =>
          if i + 1 = 0 then { opt with votes := opt.votes ++ [uid] } else opt) = t :=
        mapIdx_eq_self t _ (fun i a => by simp)
      rw [ht, votesSum_cons, votesSum_cons]
      dsimp only
      rw [List.count_append]
      have hsing : ([uid] : List Nat).count u = if u = uid then 1 else 0 := by
        rw [List.count_cons, List.count_nil]
        simp only [beq_iff_eq, Nat.zero_add]
        by_cases h : u = uid
        · rw [if_pos h.symm, if_pos h]
        · rw [if_neg (fun he => h he.symm), if_neg h]
      rw [hsing]
      have hlen : (0 < (o :: t).length) := by simp
      split_ifs with ha hb hb <;> omega
    · obtain ⟨k, rfl⟩ : ∃ k, oi = k + 1 := ⟨oi - 1, by omega⟩
      rw [if_neg (by omega)]
      have hfun : (fun i opt =>
          if i + 1 = k + 1 then { opt with votes := opt.votes ++ [uid] } else opt)
          = (fun i (opt : PollOption) =>
          if i = k then { opt with votes := opt.votes ++ [uid] } else opt) := by
        funext i opt
        simp [Nat.succ_inj]
      rw [hfun, votesSum_cons, votesSum_cons, ih k]
      simp only [List.length_cons]
      split_ifs with ha hb hb <;> omega

theorem onVote_step (uid pid oi : Nat) (posts : List Post)
    (h : ∀ p ∈ posts, ∀ pd, p.pollData = some pd → ∀ u, votesSum u pd.options ≤ 1) :
    ∀ p ∈ onVote uid pid oi posts, ∀ pd, p.pollData = some pd → ∀ u,
      votesSum u pd.options ≤ 1 := by
  intro p hp pd hpd u
  unfold onVote at hp
  rw [List.mem_map] at hp
  obtain ⟨q, hq, heq⟩ := hp
  cases hqd : q.pollData with
  | none =>
    rw [hqd] at heq
    dsimp only at heq
    subst heq
    exact h q hq pd hpd u
  | some pdq =>
    rw [hqd] at heq
    dsimp only at heq
    split_ifs at heq with hcond hvoted
    · subst heq
      exact h q hq pd hpd u
    · subst heq
      dsimp only at hpd
      have hpd' : pd = { pdq with options := pdq.options.mapIdx fun index opt =>
          if index = oi then { opt with votes := opt.votes ++ [uid] } else opt } :=
        (Option.some.inj hpd).symm
      subst hpd'
      dsimp only
      rw [votesSum_mapIdx_vote]
      by_cases hu : u = uid
      · subst hu
        have h0 : votesSum u pdq.options = 0 := by
          apply votesSum_eq_zero
          intro o ho hmem
          have := List.any_eq_false.mp (Bool.not_eq_true _ |>.mp hvoted) o ho
          simp only [List.elem_iff] at this
          exact this (by simpa [List.elem_iff] using hmem)
        rw [h0]
        split_ifs <;> omega
      · rw [if_neg (by tauto)]
        exact h q hq pdq hqd u
    · subst heq
      exact h q hq pd hpd u

/-- C4: voting is a no-op when the acting user already voted on any option
    of the poll, and otherwise appends the user id to the chosen option's
    vote list only; consequently, starting from any state where every user
    holds at most one vote per poll, any sequence of vote operations
    preserves that bound. -/
theorem onVote_spec :
    (∀ (uid pid oi : Nat) (posts : List Post) (i : Nat) (p : Post) (pd : PollData),
      posts[i]? = some p → p.pollData = some pd →
      ((p.id = pid ∧ p.type = "poll") →
        ((∃ opt ∈ pd.options, uid ∈ opt.votes) → (onVote uid pid oi posts)[i]? = some p)
        ∧ ((∀ opt ∈ pd.options, uid ∉ opt.votes) →
            ∃ v : Post, (onVote uid pid oi posts)[i]? = some v
              ∧ v = { p with pollData := v.pollData }
              ∧ ∃ pdv : PollData, v.pollData = some pdv
                ∧ pdv.options.length = pd.options.length
                ∧ (∀ (j : Nat) (o : PollOption), j ≠ oi → pd.options[j]? = some o →
                    pdv.options[j]? = some o)
                ∧ (∀ o : PollOption, pd.options[oi]? = some o →
                    pdv.options[oi]? = some { o with votes := o.votes ++ [uid] })))
      ∧ (¬(p.id = pid ∧ p.type = "poll") → (onVote uid pid oi posts)[i]? = some p))
    ∧ (∀ posts : List Post,
        (∀ p ∈ posts, ∀ pd, p.pollData = some pd → ∀ u, votesSum u pd.options ≤ 1) →
        ∀ ops : List (Nat × Nat × Nat),
          ∀ p ∈ ops.foldl (fun ps op => onVote op.1 op.2.1 op.2.2 ps) posts,
            ∀ pd, p.pollData = some pd → ∀ u, votesSum u pd.options ≤ 1) := by
  constructor
  · intro uid pid oi posts i p pd hp hpd
    have h1 : (onVote uid pid oi posts)[i]?
        = Option.map (fun p =>
            match p.pollData with
            | none => p
            | some pd =>
              if p.id = pid ∧ p.type = "poll" then
                if pd.options.any (fun opt => opt.votes.contains uid) then p
                else
                  let newOptions := pd.options.mapIdx fun index opt =>
                    if index = oi then { opt with votes := opt.votes ++ [uid] }
                    else opt
                  { p with pollData := some { pd with options := newOptions } }
              else p) posts[i]? := by
      unfold onVote
      exact List.getElem?_map _ _ _
    rw [hp, Option.map_some'] at h1
    rw [hpd] at h1
    dsimp only at h1
    constructor
    · intro hcond
      constructor
      · rintro ⟨opt, hopt, huid⟩
        have hany : pd.options.any (fun opt => opt.votes.contains uid) = true :=
          List.any_eq_true.mpr ⟨opt, hopt, by simpa [List.elem_iff] using huid⟩
        rw [if_pos hcond, if_pos hany] at h1
        exact h1
      · intro hnone
        have hany : pd.options.any (fun opt => opt.votes.contains uid) = false :=
          List.any_eq_false.mpr
            (fun x hx => by simpa [List.elem_iff] using hnone x hx)
        rw [if_pos hcond, hany] at h1
        simp only [Bool.false_eq_true, if_false] at h1
        refine ⟨_, h1, rfl, _, rfl, ?_, ?_, ?_⟩
        · exact List.length_mapIdx
        · intro j o hj ho
          show (pd.options.mapIdx fun index opt =>
            if index = oi then { opt with votes := opt.votes ++ [uid] } else opt)[j]?
              = some o
          rw [getElem?_mapIdx, ho, Option.map_some', if_neg hj]
        · intro o ho
          show (pd.options.mapIdx fun index opt =>
            if index = oi then { opt with votes := opt.votes ++ [uid] } else opt)[oi]?
              = some { o with votes := o.votes ++ [uid] }
          rw [getElem?_mapIdx, ho, Option.map_some', if_pos rfl]
    · intro hncond
      rw [if_neg hncond] at h1
      exact h1
  · intro posts h ops
    induction ops generalizing posts with
    | nil => exact h
    | cons op t ih =>
      exact ih (onVote op.1 op.2.1 op.2.2 posts) (onVote_step op.1 op.2.1 op.2.2 posts h)

/-- Witness for C4: user 1 already voted on the mock poll (post 3), so
    voting again is a no-op; and a vote sequence on that poll keeps every
    user's total at most 1. -/
theorem onVote_spec_witness :
    MOCK_POSTS[2]? = some MOCK_POST_3
    ∧ (onVote 1 3 0 MOCK_POSTS)[2]? = some MOCK_POST_3
    ∧ (∀ p ∈ (([(2, 3, 1)] : List (Nat × Nat × Nat)).foldl
          (fun ps op => onVote op.1 op.2.1 op.2.2 ps) [MOCK_POST_3]),
        ∀ pd, p.pollData = some pd → ∀ u, votesSum u pd.options ≤ 1) := by
  refine ⟨rfl, ?_, ?_⟩
  · exact ((onVote_spec.1 1 3 0 MOCK_POSTS 2 MOCK_POST_3 MOCK_POLL
      rfl rfl).1 (by decide)).1
      ⟨⟨"Sandelholz-Vanille", [1]⟩, by decide, by decide⟩
  · apply onVote_spec.2
    intro p hp pd hpd u
    have hp' : p = MOCK_POST_3 := by
      simpa [List.mem_singleton] using hp
    subst hp'
    have hpd' : pd = MOCK_POLL := by
      have h3 : MOCK_POST_3.pollData = some pd := hpd
      exact (Option.some.inj h3).symm
    subst hpd'
    simp [MOCK_POLL, votesSum, List.count_cons, List.count_nil]
    split_ifs <;> omega

-- ### Generator lemmas (C2, C9)

theorem mkSlot_id_length (loc sauna : String) (cd : CalDate) (t : Nat) :
    (mkSlot loc sauna cd t).id.length
      = loc.length + sauna.length + (dateStr cd).length + (timeStr t).length + 3 := by
  show (loc ++ "-" ++ sauna ++ "-" ++ dateStr cd ++ "-" ++ timeStr t).length = _
  simp only [String.length_append]
  have h1 : ("-" : String).length = 1 := rfl
  rw [h1]
  omega

theorem mem_fdsBlock {a : Aufguss} {cd : CalDate} (h : a ∈ fdsBlock cd) :
    a.date = cd ∧ a.location = "Panoramabad Freudenstadt" ∧ 17 < a.id.length := by
  unfold fdsBlock at h
  rw [List.mem_flatMap] at h
  obtain ⟨sauna, hs, ha⟩ := h
  rw [List.mem_map] at ha
  obtain ⟨t, ht, rfl⟩ := ha
  refine ⟨rfl, rfl, ?_⟩
  rw [mkSlot_id_length]
  have hl : ("Panoramabad Freudenstadt" : String).length = 24 := rfl
  omega

theorem mem_urachBlock {a : Aufguss} {cd : CalDate} (h : a ∈ urachBlock cd) :
    a.date = cd ∧ a.location = "Albthermen Bad Urach" ∧ 17 < a.id.length := by
  unfold urachBlock at h
  rw [List.mem_flatMap] at h
  obtain ⟨sauna, hs, ha⟩ := h
  rw [List.mem_map] at ha
  obtain ⟨t, ht, rfl⟩ := ha
  refine ⟨rfl, rfl, ?_⟩
  rw [mkSlot_id_length]
  have hl : ("Albthermen Bad Urach" : String).length = 20 := rfl
  omega

theorem mem_hswBlock {a : Aufguss} {cd : CalDate} (h : a ∈ hswBlock cd) :
    a.date = cd ∧ a.location = "Saunawelt Höchenschwand" ∧ 17 < a.id.length := by
  unfold hswBlock at h
  rw [List.mem_flatMap] at h
  obtain ⟨sauna, hs, ha⟩ := h
  rw [List.mem_map] at ha
  obtain ⟨t, ht, rfl⟩ := ha
  refine ⟨rfl, rfl, ?_⟩
  rw [mkSlot_id_length]
  have hl : ("Saunawelt Höchenschwand" : String).length = 23 := rfl
  omega

theorem mem_slotsForDay_facts {a : Aufguss} {tod : Nat} {cd : CalDate}
    (h : a ∈ slotsForDay tod cd) : a.date = cd ∧ 17 < a.id.length := by
  unfold slotsForDay at h
  rcases List.mem_append.mp h with h1 | h1
  · rcases List.mem_append.mp h1 with h2 | h2
    · exact ⟨(mem_fdsBlock h2).1, (mem_fdsBlock h2).2.2⟩
    · exact ⟨(mem_urachBlock h2).1, (mem_urachBlock h2).2.2⟩
  · split_ifs at h1 with ho
    · exact ⟨(mem_hswBlock h1).1, (mem_hswBlock h1).2.2⟩
    · exact absurd h1 (List.not_mem_nil a)

/-- The Location C slots of the generated set, for a given calendar day. -/
def locCSlotsOn (l : List Aufguss) (cd : CalDate) : List Aufguss :=
  l.filter fun a => decide (a.location = "Saunawelt Höchenschwand" ∧ a.date = cd)

theorem filter_flatMap {α β : Type} (l : List α) (f : α → List β) (p : β → Bool) :
    (l.flatMap f).filter p = l.flatMap fun x => (f x).filter p := by
  induction l with
  | nil => rfl
  | cons x t ih => rw [List.flatMap_cons, List.flatMap_cons, List.filter_append, ih]

theorem flatMap_range_eq_single {α : Type} (n d : Nat) (hd : d < n) (F : Nat → List α)
    (h : ∀ e, e < n → e ≠ d → F e = []) : (List.range n).flatMap F = F d := by
  induction n with
  | zero => omega
  | succ k ih =>
    rw [List.range_succ, List.flatMap_append, List.flatMap_singleton]
    by_cases hdk : d = k
    · subst hdk
      have hnil : (List.range d).flatMap F = [] :=
        List.flatMap_eq_nil_iff.mpr fun e he =>
          h e (by have := List.mem_range.mp he; omega)
            (by have := List.mem_range.mp he; omega)
      rw [hnil, List.nil_append]
    · have hk : F k = [] := h k (by omega) (fun he => hdk he.symm)
      rw [hk, List.append_nil]
      exact ih (by omega) (fun e he hne => h e (by omega) hne)

theorem locCSlotsOn_fdsBlock (cd x : CalDate) : locCSlotsOn (fdsBlock cd) x = [] := by
  apply List.filter_eq_nil_iff.mpr
  intro a ha
  have hloc := (mem_fdsBlock ha).2.1
  simp only [decide_eq_true_eq, not_and]
  intro hC
  rw [hloc] at hC
  exact absurd hC (by decide)

theorem locCSlotsOn_urachBlock (cd x : CalDate) : locCSlotsOn (urachBlock cd) x = [] := by
  apply List.filter_eq_nil_iff.mpr
  intro a ha
  have hloc := (mem_urachBlock ha).2.1
  simp only [decide_eq_true_eq, not_and]
  intro hC
  rw [hloc] at hC
  exact absurd hC (by decide)

theorem locCSlotsOn_hswBlock_ne {cd x : CalDate} (hne : cd ≠ x) :
    locCSlotsOn (hswBlock cd) x = [] := by
  apply List.filter_eq_nil_iff.mpr
  intro a ha
  have hdate := (mem_hswBlock ha).1
  simp only [decide_eq_true_eq, not_and]
  intro _ hdx
  rw [hdate] at hdx
  exact hne hdx

theorem locCSlotsOn_hswBlock_self (cd : CalDate) :
    locCSlotsOn (hswBlock cd) cd = hswBlock cd := by
  apply List.filter_eq_self.mpr
  intro a ha
  have h1 := (mem_hswBlock ha).1
  have h2 := (mem_hswBlock ha).2.1
  simp only [decide_eq_true_eq]
  exact ⟨h2, h1⟩

theorem locCSlotsOn_slotsForDay_ne (tod : Nat) {cd x : CalDate} (hne : cd ≠ x) :
    locCSlotsOn (slotsForDay tod cd) x = [] := by
  unfold slotsForDay locCSlotsOn
  rw [List.filter_append, List.filter_append]
  have h1 := locCSlotsOn_fdsBlock cd x
  have h2 := locCSlotsOn_urachBlock cd x
  unfold locCSlotsOn at h1 h2
  rw [h1, h2]
  split_ifs with ho
  · have h3 := locCSlotsOn_hswBlock_ne hne
    unfold locCSlotsOn at h3
    rw [h3]
    rfl
  · rfl

theorem locCSlotsOn_slotsForDay_self (tod : Nat) (cd : CalDate) :
    locCSlotsOn (slotsForDay tod cd) cd
      = if hswOpen cd tod then hswBlock cd else [] := by
  unfold slotsForDay locCSlotsOn
  rw [List.filter_append, List.filter_append]
  have h1 := locCSlotsOn_fdsBlock cd cd
  have h2 := locCSlotsOn_urachBlock cd cd
  unfold locCSlotsOn at h1 h2
  rw [h1, h2]
  split_ifs with ho
  · have h3 := locCSlotsOn_hswBlock_self cd
    unfold locCSlotsOn at h3
    rw [h3]
    rfl
  · rfl

theorem locCSlotsOn_gen (now : DateTime) (hv : now.date.Valid)
    (d : Nat) (hd : d < 30) :
    locCSlotsOn (generateInitialAufguesse now) (addDays now.date d)
      = if hswOpen (addDays now.date d) now.tod then hswBlock (addDays now.date d)
        else [] := by
  unfold generateInitialAufguesse locCSlotsOn
  rw [List.filter_append]
  have htest : ([pastTestSlot now].filter fun a =>
      decide (a.location = "Saunawelt Höchenschwand" ∧ a.date = addDays now.date d))
      = [] := by
    apply List.filter_eq_nil_iff.mpr
    intro a ha
    rw [List.mem_singleton] at ha
    subst ha
    simp only [decide_eq_true_eq, not_and]
    intro hC
    have hloc : (pastTestSlot now).location = "Panoramabad Freudenstadt" := rfl
    rw [hloc] at hC
    exact absurd hC (by decide)
  rw [htest, List.append_nil]
  rw [filter_flatMap]
  have := flatMap_range_eq_single 30 d hd
    (fun e => (slotsForDay now.tod (addDays now.date e)).filter fun a =>
      decide (a.location = "Saunawelt Höchenschwand" ∧ a.date = addDays now.date d))
    (fun e he hne => by
      have hne' : addDays now.date e ≠ addDays now.date d := addDays_ne_of_ne hv hne
      have h := locCSlotsOn_slotsForDay_ne now.tod hne'
      unfold locCSlotsOn at h
      exact h)
  rw [this]
  have h := locCSlotsOn_slotsForDay_self now.tod (addDays now.date d)
  unfold locCSlotsOn at h
  exact h

theorem hswOpen_iff (cd : CalDate) (tod : Nat) (hv : cd.Valid)
    (htod : tod < 86400000) :
    hswOpen cd tod = true
      ↔ (9 ≤ cd.month ∨ (cd.month = 8 ∧ cd.day = 31 ∧ 0 < tod)) := by
  unfold hswOpen epochMs toOrdinal daysBeforeYear
  obtain ⟨y, m, dy⟩ := cd
  obtain ⟨h1, h2, h3, h4⟩ := hv
  dsimp only
  rw [decide_eq_true_eq]
  have hle : dy ≤ daysInMonth y m := h4
  unfold daysInMonth at hle
  interval_cases m <;>
    simp only [daysBeforeMonth] <;> norm_num at hle ⊢ <;> split_ifs at hle ⊢ <;> omega

/-- Counterexample for C2 as stated: generating at 2025-08-17, 01:00 local
    time puts 2025-08-31 (a day on or before August 31) inside the window,
    yet a Location C slot is produced for that day. -/
theorem generateAufguesse_locC_aug31_cex :
    (⟨2025, 8, 31⟩ : CalDate).month ≤ 8
    ∧ ∃ a ∈ generateInitialAufguesse ⟨⟨2025, 8, 17⟩, 3600000⟩,
        a.location = "Saunawelt Höchenschwand" ∧ a.date = ⟨2025, 8, 31⟩ := by
  refine ⟨by decide, mkSlot "Saunawelt Höchenschwand" "Natur-Sauna" ⟨2025, 8, 31⟩ 600,
    ?_, rfl, rfl⟩
  unfold generateInitialAufguesse
  apply List.mem_append_left
  apply List.mem_flatMap.mpr
  refine ⟨14, List.mem_range.mpr (by omega), ?_⟩
  have haddd : addDays (⟨2025, 8, 17⟩ : CalDate) 14 = ⟨2025, 8, 31⟩ := by decide
  show mkSlot "Saunawelt Höchenschwand" "Natur-Sauna" ⟨2025, 8, 31⟩ 600
    ∈ slotsForDay 3600000 (addDays (⟨2025, 8, 17⟩ : CalDate) 14)
  rw [haddd]
  decide

/-- C2 (amended): in the generated 30-day slot set, for every window day on
    or before August 30 of that day's year — and also on August 31 itself
    when the generation instant is exactly midnight — zero Location C slots
    are produced; for every window day from September 1 onward, and also on
    August 31 when the generation instant's time of day is after midnight,
    each Location C sauna gets exactly the hourly slots 10:00–20:00
    (its `hswBlock`). -/
theorem generateAufguesse_locC_spec (now : DateTime) (hv : now.date.Valid)
    (htod : now.tod < 86400000) (d : Nat) (hd : d < 30) :
    (((addDays now.date d).month < 8
        ∨ ((addDays now.date d).month = 8 ∧ (addDays now.date d).day < 31)
        ∨ ((addDays now.date d).month = 8 ∧ (addDays now.date d).day = 31
            ∧ now.tod = 0)) →
      locCSlotsOn (generateInitialAufguesse now) (addDays now.date d) = [])
    ∧ ((9 ≤ (addDays now.date d).month
        ∨ ((addDays now.date d).month = 8 ∧ (addDays now.date d).day = 31
            ∧ 0 < now.tod)) →
      locCSlotsOn (generateInitialAufguesse now) (addDays now.date d)
        = hswBlock (addDays now.date d)) := by
  have hvd : (addDays now.date d).Valid := valid_addDays hv d
  have hiff := hswOpen_iff (addDays now.date d) now.tod hvd htod
  rw [locCSlotsOn_gen now hv d hd]
  constructor
  · intro hclosed
    have hno : ¬(hswOpen (addDays now.date d) now.tod = true) := by
      intro ho
      rcases hiff.mp ho with h9 | ⟨h8, h31, htodpos⟩
      · rcases hclosed with hlt | ⟨he, _⟩ | ⟨he, _, _⟩ <;> omega
      · rcases hclosed with hlt | ⟨he, hdy⟩ | ⟨he, hdy, ht0⟩ <;> omega
    rw [if_neg hno]
  · intro hopen
    rw [if_pos (hiff.mpr hopen)]

/-- Witness for C2 (amended): generating at midnight of 2025-08-20, the
    window day 2025-08-25 (≤ Aug 31) gets no Location C slots, while
    2025-09-04 gets the full 10:00–20:00 block per Location C sauna. -/
theorem generateAufguesse_locC_spec_witness :
    CalDate.Valid ⟨2025, 8, 20⟩
    ∧ addDays (⟨2025, 8, 20⟩ : CalDate) 5 = ⟨2025, 8, 25⟩
    ∧ addDays (⟨2025, 8, 20⟩ : CalDate) 15 = ⟨2025, 9, 4⟩
    ∧ locCSlotsOn (generateInitialAufguesse ⟨⟨2025, 8, 20⟩, 0⟩) ⟨2025, 8, 25⟩ = []
    ∧ locCSlotsOn (generateInitialAufguesse ⟨⟨2025, 8, 20⟩, 0⟩) ⟨2025, 9, 4⟩
        = hswBlock ⟨2025, 9, 4⟩ := by
  have hadd5 : addDays (⟨2025, 8, 20⟩ : CalDate) 5 = ⟨2025, 8, 25⟩ := by decide
  have hadd15 : addDays (⟨2025, 8, 20⟩ : CalDate) 15 = ⟨2025, 9, 4⟩ := by decide
  refine ⟨by decide, hadd5, hadd15, ?_, ?_⟩
  · have h := (generateAufguesse_locC_spec ⟨⟨2025, 8, 20⟩, 0⟩ (by decide) (by decide)
      5 (by decide)).1
    dsimp only at h
    rw [hadd5] at h
    exact h (by decide)
  · have h := (generateAufguesse_locC_spec ⟨⟨2025, 8, 20⟩, 0⟩ (by decide) (by decide)
      15 (by decide)).2
    dsimp only at h
    rw [hadd15] at h
    exact h (by decide)

/-- C9: the generated slot set contains exactly one slot with id
    "test-aufguss-past"; it is dated 15 days before the generation day,
    lies outside the 30-day window, and is already claimed by user 2 with
    type "Test Aufguss" — so a freshly generated slot set is never entirely
    unclaimed. -/
theorem generateAufguesse_testSlot_spec (now : DateTime) (hv : now.date.Valid)
    (h15 : 15 ≤ toOrdinal now.date) :
    (generateInitialAufguesse now).filter (fun a => a.id == "test-aufguss-past")
      = [pastTestSlot now]
    ∧ (pastTestSlot now).date = subDays now.date 15
    ∧ toOrdinal (pastTestSlot now).date + 15 = toOrdinal now.date
    ∧ (∀ e, e < 30 → (pastTestSlot now).date ≠ addDays now.date e)
    ∧ (pastTestSlot now).aufgussmeisterId = some 2
    ∧ (pastTestSlot now).type = some "Test Aufguss"
    ∧ (∃ a ∈ generateInitialAufguesse now, a.aufgussmeisterId ≠ none) := by
  have hsub := subDays_spec hv 15 h15
  have hdate : (pastTestSlot now).date = subDays now.date 15 := by
    dsimp only [pastTestSlot]
  have hown : (pastTestSlot now).aufgussmeisterId = some 2 := by
    dsimp only [pastTestSlot]
  have htype : (pastTestSlot now).type = some "Test Aufguss" := by
    dsimp only [pastTestSlot]
  refine ⟨?_, hdate, ?_, ?_, hown, htype, ?_⟩
  · unfold generateInitialAufguesse
    rw [List.filter_append]
    have hwin : ((List.range 30).flatMap fun day =>
        slotsForDay now.tod (addDays now.date day)).filter
          (fun a => a.id == "test-aufguss-past") = [] := by
      apply List.filter_eq_nil_iff.mpr
      intro a ha
      rw [List.mem_flatMap] at ha
      obtain ⟨e, he, hae⟩ := ha
      have hlen := (mem_slotsForDay_facts hae).2
      intro hbeq
      have hid : a.id = "test-aufguss-past" := by simpa using hbeq
      rw [hid] at hlen
      have h17 : ("test-aufguss-past" : String).length = 17 := rfl
      omega
    rw [hwin, List.nil_append]
    have hpred : ((pastTestSlot now).id == "test-aufguss-past") = true := rfl
    rw [List.filter_cons]
    rw [hpred]
    rfl
  · rw [hdate, hsub.2]
    omega
  · intro e he heq
    have h1 : toOrdinal (pastTestSlot now).date = toOrdinal now.date - 15 := by
      rw [hdate, hsub.2]
    have h2 : toOrdinal (addDays now.date e) = toOrdinal now.date + e :=
      toOrdinal_addDays hv e
    rw [heq, h2] at h1
    omega
  · refine ⟨pastTestSlot now,
      List.mem_append_right _ (List.mem_singleton.mpr rfl), ?_⟩
    intro hcontra
    rw [hown] at hcontra
    exact Option.noConfusion hcontra

/-- Witness for C9 at generation day 2026-01-15: the unique test slot is
    dated 2025-12-31 (15 days earlier). -/
theorem generateAufguesse_testSlot_spec_witness :
    CalDate.Valid ⟨2026, 1, 15⟩
    ∧ 15 ≤ toOrdinal ⟨2026, 1, 15⟩
    ∧ (generateInitialAufguesse ⟨⟨2026, 1, 15⟩, 0⟩).filter
        (fun a => a.id == "test-aufguss-past") = [pastTestSlot ⟨⟨2026, 1, 15⟩, 0⟩]
    ∧ (pastTestSlot ⟨⟨2026, 1, 15⟩, 0⟩).date = ⟨2025, 12, 31⟩ := by
  refine ⟨by decide, by decide, ?_, by decide⟩
  exact (generateAufguesse_testSlot_spec ⟨⟨2026, 1, 15⟩, 0⟩ (by decide) (by decide)).1
